import Mathlib

/-!
Verification of the nmea-web repository (NMEA 0183 encoder and decoder,
GGA and RMC sentences only).

Strings from the JavaScript source are modelled as `List Char`; a JS string
slot that may hold `undefined` is `Option (List Char)`.  JS numbers are
modelled exactly as unnormalised fractions (`Frac`, an integer numerator
over a natural denominator); the JS value `NaN` is modelled by `none` in
`Option Frac`.  The map `Frac.toRat` gives the rational value of a fraction.
This replaces IEEE doubles by exact rational arithmetic: every numeric
computation the claims exercise (fixed-point rendering with `toFixed`,
`parseInt`, `parseFloat`, XOR checksums over character codes) is decimal or
integer arithmetic for which the rational model is exact.
`String.charCodeAt` is modelled by `Char.toNat` (identical on the Basic
Multilingual Plane, which covers every character the library manipulates).
-/

namespace Nmea

/-- Unnormalised fraction: the JS number `num / den`.  Denominators produced
by the embedded code are always positive; theorems that need the rational
value carry that positivity. -/
structure Frac where
  num : Int
  den : Nat
deriving DecidableEq, Repr

/-- Rational value of a fraction. -/
def Frac.toRat (q : Frac) : ℚ := (q.num : ℚ) / (q.den : ℚ)

/-- Embedding of an integer JS number. -/
def Frac.ofInt (n : Int) : Frac := ⟨n, 1⟩

/-- JS addition. -/
def Frac.add (a b : Frac) : Frac := ⟨a.num * b.den + b.num * a.den, a.den * b.den⟩

/-- JS subtraction. -/
def Frac.sub (a b : Frac) : Frac := ⟨a.num * b.den - b.num * a.den, a.den * b.den⟩

/-- JS multiplication. -/
def Frac.mul (a b : Frac) : Frac := ⟨a.num * b.num, a.den * b.den⟩

/-- JS division (never used with a zero divisor by the embedded code). -/
def Frac.div (a b : Frac) : Frac :=
  ⟨a.num * b.den * (if b.num < 0 then -1 else 1), a.den * b.num.natAbs⟩

/-- JS unary minus. -/
def Frac.neg (a : Frac) : Frac := ⟨-a.num, a.den⟩

/-- Model of `Math.abs`. -/
def Frac.abs (a : Frac) : Frac := ⟨(a.num.natAbs : Int), a.den⟩

/-- Model of `Math.floor` (exact for positive denominators). -/
def Frac.floor (a : Frac) : Int := a.num.fdiv a.den

/-- JS comparison `x >= 0` (exact for positive denominators). -/
def Frac.nonneg (a : Frac) : Bool := 0 ≤ a.num

/-- Characters counted as whitespace by the JS number parsers. -/
def isJsWs (c : Char) : Bool :=
  c = ' ' ∨ c = '\t' ∨ c = '\n' ∨ c = '\r' ∨ c = '\x0b' ∨ c = '\x0c'

/-- Decimal digit test. -/
def isDigitChar (c : Char) : Bool := 48 ≤ c.toNat ∧ c.toNat ≤ 57

/-- Hexadecimal digit test (both cases). -/
def isHexDigitChar (c : Char) : Bool :=
  (48 ≤ c.toNat ∧ c.toNat ≤ 57) ∨ (65 ≤ c.toNat ∧ c.toNat ≤ 70) ∨
    (97 ≤ c.toNat ∧ c.toNat ≤ 102)

/-- Value of a decimal digit character. -/
def digitVal (c : Char) : Nat := c.toNat - 48

/-- Value of a hexadecimal digit character. -/
def hexVal (c : Char) : Nat :=
  if 97 ≤ c.toNat then c.toNat - 87
  else if 65 ≤ c.toNat then c.toNat - 55
  else c.toNat - 48

/-- Character for a decimal digit. -/
def digitChar (d : Nat) : Char := Char.ofNat (48 + d)

/-- Character for an uppercase hexadecimal digit. -/
def hexDigitCharUpper (d : Nat) : Char :=
  if d < 10 then Char.ofNat (48 + d) else Char.ofNat (55 + d)

/-- Fuel-driven decimal rendering of a positive natural number, most
significant digit first (empty on zero); the fuel argument makes the
recursion structural so that the kernel can evaluate it. -/
def natDecAux : Nat → Nat → List Char
  | 0, _ => []
  | _ + 1, 0 => []
  | fuel + 1, n + 1 => natDecAux fuel ((n + 1) / 10) ++ [digitChar ((n + 1) % 10)]

/-- Decimal rendering of a natural number, as produced by JS `toString`
and `toFixed` for integral values. -/
def natDecimal (n : Nat) : List Char :=
  if n = 0 then ['0'] else natDecAux (n + 1) n

/-- Fuel-driven uppercase hexadecimal rendering of a positive natural. -/
def natHexAux : Nat → Nat → List Char
  | 0, _ => []
  | _ + 1, 0 => []
  | fuel + 1, n + 1 => natHexAux fuel ((n + 1) / 16) ++ [hexDigitCharUpper ((n + 1) % 16)]

/-- Model of `n.toString(16).toUpperCase()` for a natural number: the JS
call renders lowercase hexadecimal and uppercases it, which is the direct
uppercase rendering. -/
def natHexUpper (n : Nat) : List Char :=
  if n = 0 then ['0'] else natHexAux (n + 1) n

/-- Value of a list of decimal digit characters, most significant first. -/
def parseDecDigits (l : List Char) : Nat :=
  l.foldl (fun a c => a * 10 + digitVal c) 0

/-- Value of a list of hexadecimal digit characters, most significant first. -/
def parseHexDigits (l : List Char) : Nat :=
  l.foldl (fun a c => a * 16 + hexVal c) 0

/-- Model of `String.prototype.padStart(width, c)`. -/
def padStart (width : Nat) (c : Char) (s : List Char) : List Char :=
  List.replicate (width - s.length) c ++ s

/-- Optional sign at the front of a numeric literal: the sign factor and
the remaining characters. -/
def splitSign : List Char → Int × List Char
  | '+' :: t => (1, t)
  | '-' :: t => (-1, t)
  | s => (1, s)

/-- Optional `0x`/`0X` prefix stripping of `parseInt(-, 16)`. -/
def stripHexPrefix : List Char → List Char
  | '0' :: 'x' :: t => t
  | '0' :: 'X' :: t => t
  | s => s

/-- Model of `parseInt(s, 10)`: skip leading whitespace, read an optional
sign, then the longest run of decimal digits; `NaN` (here `none`) when that
run is empty. -/
def jsParseIntDec (s : List Char) : Option Int :=
  let (sgn, s1) := splitSign (s.dropWhile isJsWs)
  let ds := s1.takeWhile isDigitChar
  if ds = [] then none else some (sgn * parseDecDigits ds)

/-- Model of `parseInt(s, 16)`: skip leading whitespace, read an optional
sign, strip an optional `0x`/`0X` prefix, then the longest run of
hexadecimal digits; `NaN` when that run is empty. -/
def jsParseIntHex (s : List Char) : Option Int :=
  let (sgn, s1) := splitSign (s.dropWhile isJsWs)
  let ds := (stripHexPrefix s1).takeWhile isHexDigitChar
  if ds = [] then none else some (sgn * parseHexDigits ds)

/-- Scale a fraction by a signed power of ten (exponent part of a decimal
literal). -/
def Frac.scale10 (q : Frac) (e : Int) : Frac :=
  if 0 ≤ e then ⟨q.num * (10 ^ e.toNat : Nat), q.den⟩
  else ⟨q.num, q.den * 10 ^ (-e).toNat⟩

/-- Fraction digits of a decimal literal: on a leading `.`, the digit run
after it and the remainder; otherwise no fraction digits. -/
def fracPart : List Char → List Char × List Char
  | '.' :: t => (t.takeWhile isDigitChar, t.dropWhile isDigitChar)
  | r => ([], r)

/-- Optional exponent of a decimal literal applied to the mantissa: an
`e`/`E` followed by an optional sign and at least one digit scales the
value; anything else leaves it unchanged. -/
def expPart (mant : Frac) : List Char → Option Frac
  | e :: t =>
    if e = 'e' ∨ e = 'E' then
      let (esgn, t2) := splitSign t
      let es := t2.takeWhile isDigitChar
      if es = [] then some mant
      else some (mant.scale10 (esgn * parseDecDigits es))
    else some mant
  | [] => some mant

/-- Model of `parseFloat(s)`: skip leading whitespace, read an optional
sign, then the longest prefix of the form `digits [. digits] [e sign
digits]` with at least one mantissa digit; trailing garbage is ignored and
an `e` not followed by digits is ignored.  (The literals `Infinity` and
`NaN` are never produced by the embedded code and are not modelled.) -/
def jsParseFloat (s : List Char) : Option Frac :=
  let (sgn, s1) := splitSign (s.dropWhile isJsWs)
  let ds := s1.takeWhile isDigitChar
  let r := s1.dropWhile isDigitChar
  let (fs, r2) := fracPart r
  if ds = [] ∧ fs = [] then none
  else
    expPart
      ⟨sgn * ((parseDecDigits ds * 10 ^ fs.length + parseDecDigits fs : Nat) : Int),
        10 ^ fs.length⟩ r2

/-- Rounding step of `toFixed` on a non-negative fraction: the integer
nearest to `y * 10^p`, ties toward the larger (the ECMAScript rule),
computed as `floor(y * 10^p + 1/2)` on the common denominator. -/
def toFixedRound (p : Nat) (y : Frac) : Nat :=
  (Frac.floor ⟨y.num * (10 ^ p : Nat) * 2 + y.den, y.den * 2⟩).toNat

/-- Digit rendering of `toFixed` on a non-negative fraction. -/
def jsToFixedPos (p : Nat) (y : Frac) : List Char :=
  let n := toFixedRound p y
  if p = 0 then natDecimal n
  else natDecimal (n / 10 ^ p) ++ '.' :: padStart p '0' (natDecimal (n % 10 ^ p))

/-- Model of `Number.prototype.toFixed(p)` on the exact rational value: a
minus sign for negative input, then the decimal rendering of the integer
nearest to `|x| * 10^p` (ties toward the larger, per the ECMAScript
specification), with `p` digits after the point. -/
def jsToFixed (p : Nat) (x : Frac) : List Char :=
  if x.num < 0 then '-' :: jsToFixedPos p x.abs else jsToFixedPos p x

/-- Splitting on a separator character, as JS `String.prototype.split`
with a single-character separator: the result is never empty and the
separators are consumed. -/
def splitOn (sep : Char) : List Char → List (List Char)
  | [] => [[]]
  | c :: t =>
    match splitOn sep t with
    | h :: r => if c = sep then [] :: h :: r else (c :: h) :: r
    | [] => if c = sep then [[], []] else [[c]]

/-- Fold of XOR over the character codes of a list, the common core of
both checksum routines. -/
def xorFold (l : List Char) : Nat :=
  l.foldl (fun a c => a ^^^ c.toNat) 0

end Nmea

namespace NmeaEncoder

open Nmea

/-- Source interface `TrackPosition` (src/nmeaEncoder.ts).  The optional
`timestamp` is Unix epoch milliseconds; a JS `Date` built from it is
modelled by the integer itself. -/
structure TrackPosition where
  latitude : Frac
  longitude : Frac
  altitude : Frac
  speed : Frac
  heading : Frac
  timestamp : Option Int := none
deriving DecidableEq, Repr

/-- Source interface `EncodeOptions`. -/
structure EncodeOptions where
  timestamp : Option Int := none
  includeMs : Option Bool := none
deriving DecidableEq, Repr

/-- Source function `pad`: `num.toFixed(precision).padStart(width, '0')`. -/
def pad (num : Frac) (width : Nat) (precision : Nat := 0) : List Char :=
  padStart width '0' (jsToFixed precision num)

/-- Source function `formatLatitude`. -/
def formatLatitude (lat : Frac) : List Char :=
  let hemi := if lat.nonneg then 'N' else 'S'
  let lat := lat.abs
  let degrees := Frac.ofInt lat.floor
  let minutes := (lat.sub degrees).mul (Frac.ofInt 60)
  pad degrees 2 ++ pad minutes 7 4 ++ ',' :: [hemi]

/-- Source function `formatLongitude`. -/
def formatLongitude (lon : Frac) : List Char :=
  let hemi := if lon.nonneg then 'E' else 'W'
  let lon := lon.abs
  let degrees := Frac.ofInt lon.floor
  let minutes := (lon.sub degrees).mul (Frac.ofInt 60)
  pad degrees 3 ++ pad minutes 7 4 ++ ',' :: [hemi]

/-- Hour-of-day of a `Date` holding the given epoch milliseconds, per the
ECMAScript `HourFromTime` operation. -/
def getUTCHours (ms : Int) : Int := (ms.fdiv 3600000).emod 24

/-- Minute-of-hour, per ECMAScript `MinFromTime`. -/
def getUTCMinutes (ms : Int) : Int := (ms.fdiv 60000).emod 60

/-- Second-of-minute, per ECMAScript `SecFromTime`. -/
def getUTCSeconds (ms : Int) : Int := (ms.fdiv 1000).emod 60

/-- Millisecond-of-second, per ECMAScript `msFromTime`. -/
def getUTCMilliseconds (ms : Int) : Int := ms.emod 1000

/-- Gregorian calendar date from a count of days since 1970-01-01
(year, month 1-12, day 1-31); the standard era-based algorithm.  Every
intermediate division operates on a non-negative dividend, so floor
division agrees with the truncating division of the usual formulation. -/
def civilFromDays (z0 : Int) : Int × Int × Int :=
  let z := z0 + 719468
  let era := z.fdiv 146097
  let doe := z - era * 146097
  let yoe := (doe - doe.fdiv 1460 + doe.fdiv 36524 - doe.fdiv 146096).fdiv 365
  let y := yoe + era * 400
  let doy := doe - (365 * yoe + yoe.fdiv 4 - yoe.fdiv 100)
  let mp := (5 * doy + 2).fdiv 153
  let d := doy - (153 * mp + 2).fdiv 5 + 1
  let m := mp + (if mp < 10 then 3 else -9)
  (y + (if m ≤ 2 then 1 else 0), m, d)

/-- Day-of-month of a `Date`. -/
def getUTCDate (ms : Int) : Int := (civilFromDays (ms.fdiv 86400000)).2.2

/-- Zero-based month of a `Date`, as in JS. -/
def getUTCMonth (ms : Int) : Int := (civilFromDays (ms.fdiv 86400000)).2.1 - 1

/-- Full year of a `Date`. -/
def getUTCFullYear (ms : Int) : Int := (civilFromDays (ms.fdiv 86400000)).1

/-- JS remainder operator `%` (truncating). -/
def jsRem (a b : Int) : Int := a - b * a.tdiv b

/-- Source function `formatNMEATime`. -/
def formatNMEATime (ms : Int) (includeMs : Bool) : List Char :=
  let h := pad (Frac.ofInt (getUTCHours ms)) 2
  let m := pad (Frac.ofInt (getUTCMinutes ms)) 2
  let s := pad (Frac.ofInt (getUTCSeconds ms)) 2
  if includeMs then
    h ++ m ++ s ++ '.' :: pad (Frac.ofInt (getUTCMilliseconds ms)) 3
  else h ++ m ++ s

/-- Source function `formatNMEADate`. -/
def formatNMEADate (ms : Int) : List Char :=
  pad (Frac.ofInt (getUTCDate ms)) 2 ++ pad (Frac.ofInt (getUTCMonth ms + 1)) 2 ++
    pad (Frac.ofInt (jsRem (getUTCFullYear ms) 100)) 2

/-- Accumulating loop of the encoder checksum: XOR character codes,
stopping at the first `*`. -/
def checksumLoop (acc : Nat) : List Char → Nat
  | [] => acc
  | c :: t => if c = '*' then acc else checksumLoop (acc ^^^ c.toNat) t

/-- Source function `calculateChecksum` of the encoder: XOR of the codes
of the characters from index 1 up to the first `*`, rendered as `*`
followed by the zero-padded uppercase hexadecimal value. -/
def calculateChecksum (sentence : List Char) : List Char :=
  '*' :: padStart 2 '0' (natHexUpper (checksumLoop 0 (sentence.drop 1)))

/-- Source function `resolveTime`; the ambient wall clock read by
`new Date()` is passed explicitly as `now`. -/
def resolveTime (pos : TrackPosition) (options : Option EncodeOptions) (now : Int) : Int :=
  match options.bind EncodeOptions.timestamp with
  | some t => t
  | none =>
    match pos.timestamp with
    | some t => t
    | none => now

/-- Source function `generateGPRMC`; `now` is the ambient wall clock. -/
def generateGPRMC (pos : TrackPosition) (options : Option EncodeOptions) (now : Int) :
    List Char :=
  let speedKnots := pos.speed.mul ⟨194384, 100000⟩
  let time := resolveTime pos options now
  let includeMs := (options.bind EncodeOptions.includeMs).getD false
  let sentence :=
    "$GPRMC,".toList ++ formatNMEATime time includeMs ++ ",A,".toList ++
      formatLatitude pos.latitude ++ ",".toList ++ formatLongitude pos.longitude ++
      ",".toList ++ jsToFixed 1 speedKnots ++ ",".toList ++ jsToFixed 1 pos.heading ++
      ",".toList ++ formatNMEADate time ++ ",,,A".toList
  sentence ++ calculateChecksum sentence

/-- Source function `generateGPGGA`; `now` is the ambient wall clock. -/
def generateGPGGA (pos : TrackPosition) (options : Option EncodeOptions) (now : Int) :
    List Char :=
  let time := resolveTime pos options now
  let includeMs := (options.bind EncodeOptions.includeMs).getD false
  let sentence :=
    "$GPGGA,".toList ++ formatNMEATime time includeMs ++ ",".toList ++
      formatLatitude pos.latitude ++ ",".toList ++ formatLongitude pos.longitude ++
      ",1,08,0.9,".toList ++ jsToFixed 1 pos.altitude ++ ",M,0.0,M,,".toList
  sentence ++ calculateChecksum sentence

end NmeaEncoder

namespace NmeaDecoder

open Nmea

/-- Time-of-day fields of the `Date` built by `parseTime`; the wall-clock
date part that `new Date()` contributes is irrelevant to every claim and
is not recorded.  A `none` component models `NaN` fed to `setUTCHours`. -/
structure TimeHMS where
  hh : Option Int
  mm : Option Int
  ss : Option Frac
deriving DecidableEq, Repr

/-- Components handed to `Date.UTC` by `parseDateTime` (month zero-based,
as in the source); a `none` component models `NaN`. -/
structure RmcDateTime where
  dd : Option Int
  mo : Option Int
  yy : Option Int
  hh : Option Int
  mm : Option Int
  ss : Option Frac
deriving DecidableEq, Repr

/-- Source interface `GGAPacket`.  Optional-field presence is the outer
`Option` of `differentialAge` and `differentialRefStn`; `none` in a
`Option Frac` slot models `NaN`, in the `time` slot `undefined`. -/
structure GGAPacket where
  sentenceId : List Char
  talkerId : List Char
  type : List Char
  time : Option TimeHMS
  latitude : Option Frac
  longitude : Option Frac
  fixType : Option Int
  satellitesInView : Option Int
  horizontalDilution : Option Frac
  altitudeMeters : Option Frac
  geoidalSeperation : Option Frac
  differentialAge : Option (Option Frac) := none
  differentialRefStn : Option (List Char) := none
deriving DecidableEq, Repr

/-- Source interface `RMCPacket`; `status` is `Option` because the source
assigns `parts[2]`, which is `undefined` on short sentences. -/
structure RMCPacket where
  sentenceId : List Char
  talkerId : List Char
  type : List Char
  datetime : RmcDateTime
  status : Option (List Char)
  latitude : Option Frac
  longitude : Option Frac
  speedKnots : Option Frac
  trackTrue : Option Frac
  variation : Option Frac
  variationPole : List Char
  faaMode : List Char
deriving DecidableEq, Repr

/-- Decoded packet: the `Packet` return type of `parseNmeaSentence`. -/
inductive JsPacket where
  | gga (g : GGAPacket)
  | rmc (r : RMCPacket)
deriving DecidableEq, Repr

/-- The failure modes of `parseNmeaSentence`: the two frame errors
(`Invalid NMEA sentence` and `Invalid NMEA sentence: unable to extract
checksum`), the checksum mismatch, the unsupported-sentence-type error
(carrying the offending identifier, as the thrown message does), and the
`TypeError` that escapes `parseDateTime` when it receives `undefined`. -/
inductive NmeaError where
  | invalidSentence
  | unableToExtract
  | checksumMismatch
  | unsupportedSentenceType (id : List Char)
  | typeError
deriving DecidableEq, Repr

/-- Lift of `parseFloat` to a possibly-undefined argument:
`parseFloat(undefined)` is `NaN`. -/
def jsParseFloatOpt (o : Option (List Char)) : Option Frac :=
  match o with
  | some l => jsParseFloat l
  | none => none

/-- Lift of `parseInt(-, 10)` to a possibly-undefined argument. -/
def jsParseIntDecOpt (o : Option (List Char)) : Option Int :=
  match o with
  | some l => jsParseIntDec l
  | none => none

/-- Source function `parseLatitude`; both arguments may be `undefined`
(the source receives array elements).  An empty or `undefined` `raw` is
falsy and yields `NaN`; `NaN` in either component propagates. -/
def parseLatitude (raw direction : Option (List Char)) : Option Frac :=
  match raw with
  | some (c :: t) =>
    let r := c :: t
    match jsParseIntDec (r.take 2), jsParseFloat (r.drop 2) with
    | some deg, some min =>
      let lat := (Frac.ofInt deg).add (min.div (Frac.ofInt 60))
      some (if direction = some ['S'] then lat.neg else lat)
    | _, _ => none
  | _ => none

/-- Source function `parseLongitude`. -/
def parseLongitude (raw direction : Option (List Char)) : Option Frac :=
  match raw with
  | some (c :: t) =>
    let r := c :: t
    match jsParseIntDec (r.take 3), jsParseFloat (r.drop 3) with
    | some deg, some min =>
      let lon := (Frac.ofInt deg).add (min.div (Frac.ofInt 60))
      some (if direction = some ['W'] then lon.neg else lon)
    | _, _ => none
  | _ => none

/-- Source function `parseTime`: `undefined` or empty input is falsy and
yields `undefined`; otherwise the sliced components. -/
def parseTime (timeStr : Option (List Char)) : Option TimeHMS :=
  match timeStr with
  | some (c :: t) =>
    let r := c :: t
    some ⟨jsParseIntDec (r.take 2), jsParseIntDec ((r.drop 2).take 2), jsParseFloat (r.drop 4)⟩
  | _ => none

/-- Source function `parseDateTime`.  When either argument is `undefined`
the very first `.slice` call throws a `TypeError`, modelled by the error
result. -/
def parseDateTime (dateStr timeStr : Option (List Char)) : Except NmeaError RmcDateTime :=
  match dateStr, timeStr with
  | some d, some t =>
    .ok ⟨jsParseIntDec (d.take 2), (jsParseIntDec ((d.drop 2).take 2)).map (· - 1),
      (jsParseIntDec (d.drop 4)).map (· + 2000), jsParseIntDec (t.take 2),
      jsParseIntDec ((t.drop 2).take 2), jsParseFloat (t.drop 4)⟩
  | _, _ => .error .typeError

/-- Source function `calculateChecksum` of the decoder: XOR of the codes
of all characters of its argument. -/
def calculateChecksum (nmeaData : List Char) : Nat := xorFold nmeaData

/-- Source function `parseGGA`; array reads beyond the end give
`undefined`, modelled by `List.get?`. -/
def parseGGA (parts : List (List Char)) (talkerId sentenceId : List Char) : GGAPacket :=
  { sentenceId := sentenceId
    talkerId := talkerId
    type := ['G', 'G', 'A']
    time := parseTime (parts.get? 1)
    latitude := parseLatitude (parts.get? 2) (parts.get? 3)
    longitude := parseLongitude (parts.get? 4) (parts.get? 5)
    fixType := jsParseIntDecOpt (parts.get? 6)
    satellitesInView := jsParseIntDecOpt (parts.get? 7)
    horizontalDilution := jsParseFloatOpt (parts.get? 8)
    altitudeMeters := jsParseFloatOpt (parts.get? 9)
    geoidalSeperation := jsParseFloatOpt (parts.get? 11)
    differentialAge :=
      match parts.get? 13 with
      | some (c :: t) => some (jsParseFloat (c :: t))
      | _ => none
    differentialRefStn :=
      match parts.get? 14 with
      | some (c :: t) => some ((splitOn '*' (c :: t)).headI)
      | _ => none }

/-- Source function `parseRMC`; `parseDateTime` runs first and its
`TypeError` propagates. -/
def parseRMC (parts : List (List Char)) (talkerId sentenceId : List Char) :
    Except NmeaError RMCPacket :=
  match parseDateTime (parts.get? 9) (parts.get? 1) with
  | .error e => .error e
  | .ok datetime =>
    .ok { sentenceId := sentenceId
          talkerId := talkerId
          type := ['R', 'M', 'C']
          datetime := datetime
          status := parts.get? 2
          latitude := parseLatitude (parts.get? 3) (parts.get? 4)
          longitude := parseLongitude (parts.get? 5) (parts.get? 6)
          speedKnots := jsParseFloatOpt (parts.get? 7)
          trackTrue := jsParseFloatOpt (parts.get? 8)
          variation :=
            match parts.get? 10 with
            | some (c :: t) => jsParseFloat (c :: t)
            | _ => none
          variationPole :=
            match parts.get? 11 with
            | some (c :: t) => c :: t
            | _ => []
          faaMode :=
            match parts.get? 12 with
            | some (c :: t) => (splitOn '*' (c :: t)).headI
            | _ => [] }

/-- Word-character class of the regular expression `\w`. -/
def isWordChar (c : Char) : Bool :=
  (65 ≤ c.toNat ∧ c.toNat ≤ 90) ∨ (97 ≤ c.toNat ∧ c.toNat ≤ 122) ∨
    (48 ≤ c.toNat ∧ c.toNat ≤ 57) ∨ c = '_'

/-- Character class of `.` in a JS regular expression without the `s`
flag: everything except line terminators. -/
def isDotChar (c : Char) : Bool :=
  ¬(c = '\n' ∨ c = '\r' ∨ c = ' ' ∨ c = ' ')

/-- Search for a `$` whose following characters are all matched by `.`
(the `\$(.*)` part of the frame regular expression). -/
def dollarScan : List Char → Bool
  | [] => false
  | c :: t => (c = '$' && t.all isDotChar) || dollarScan t

/-- Model of `sentence.match(/\$(.*)\*(\w{2})$/) !== null`: the sentence
ends with `*` followed by exactly two word characters, and somewhere
before that `*` stands a `$` with no line terminator between them. -/
def regexOk (s : List Char) : Bool :=
  match s.reverse with
  | b :: a :: '*' :: restRev => isWordChar a && isWordChar b && dollarScan restRev.reverse
  | _ => false

/-- Tail of `parseNmeaSentence` after the checksum stage: field split of
the data part (`sentenceData.slice(1).split(",")` where `sentenceData` is
`"$" + dataPart`), talker and sentence identifiers, and dispatch. -/
def parseBody (dataPart : List Char) : Except NmeaError JsPacket :=
  let parts := splitOn ',' dataPart
  let id := parts.headI
  let talkerId := id.take 2
  let sentenceId := id.drop 2
  if sentenceId = ['G', 'G', 'A'] then .ok (.gga (parseGGA parts talkerId sentenceId))
  else if sentenceId = ['R', 'M', 'C'] then
    match parseRMC parts talkerId sentenceId with
    | .ok r => .ok (.rmc r)
    | .error e => .error e
  else .error (.unsupportedSentenceType sentenceId)

/-- Source function `parseNmeaSentence` (the exported decoder of
src/index.ts).  The destructuring `[dataPart, checksum] =
sentence.slice(1).split("*")` takes the first two pieces of the split at
every `*`; `checksum` is `undefined` when no `*` occurs after index 0. -/
def parseNmeaSentence (sentence : List Char) (enableChecksum : Bool := false) :
    Except NmeaError JsPacket :=
  if ¬(sentence.head? = some '$' ∧ sentence.contains '*') then .error .invalidSentence
  else
    let pieces := splitOn '*' (sentence.drop 1)
    let dataPart := pieces.headI
    let checksum : Option (List Char) := pieces.get? 1
    if ¬enableChecksum then
      if regexOk sentence then parseBody dataPart else .error .unableToExtract
    else
      if (match checksum with
          | some cs => jsParseIntHex cs
          | none => none) = some ((calculateChecksum dataPart : Nat) : Int) then
        parseBody dataPart
      else .error .checksumMismatch

end NmeaDecoder

namespace Nmea

theorem splitOn_cons_eq (sep c : Char) (t : List Char) :
    splitOn sep (c :: t) =
      match splitOn sep t with
      | h :: r => if c = sep then [] :: h :: r else (c :: h) :: r
      | [] => if c = sep then [[], []] else [[c]] := rfl

theorem splitOn_ne_nil (sep : Char) (l : List Char) : splitOn sep l ≠ [] := by
  induction l with
  | nil => simp [splitOn]
  | cons c t ih =>
    cases h : splitOn sep t with
    | nil => exact absurd h ih
    | cons a r =>
      rw [splitOn_cons_eq, h]
      by_cases hc : c = sep <;> simp [hc]

theorem splitOn_sepFree {sep : Char} {l : List Char} (h : ∀ c ∈ l, c ≠ sep) :
    splitOn sep l = [l] := by
  induction l with
  | nil => rfl
  | cons c t ih =>
    have hc : c ≠ sep := h c (by simp)
    have ht := ih (fun x hx => h x (by simp [hx]))
    rw [splitOn_cons_eq, ht]
    simp [hc]

theorem splitOn_append {sep : Char} {l r : List Char} (h : ∀ c ∈ l, c ≠ sep) :
    splitOn sep (l ++ sep :: r) = l :: splitOn sep r := by
  induction l with
  | nil =>
    show splitOn sep (sep :: r) = [] :: splitOn sep r
    cases hr : splitOn sep r with
    | nil => exact absurd hr (splitOn_ne_nil sep r)
    | cons a t =>
      rw [splitOn_cons_eq, hr]
      simp
  | cons c t ih =>
    have hc : c ≠ sep := h c (by simp)
    have ht := ih (fun x hx => h x (by simp [hx]))
    show splitOn sep (c :: (t ++ sep :: r)) = (c :: t) :: splitOn sep r
    rw [splitOn_cons_eq, ht]
    simp [hc]

theorem splitOn_headI (sep : Char) (l : List Char) :
    (splitOn sep l).headI = l.takeWhile (fun c => !(c = sep)) := by
  induction l with
  | nil => rfl
  | cons c t ih =>
    cases h : splitOn sep t with
    | nil => exact absurd h (splitOn_ne_nil sep t)
    | cons a r =>
      rw [h] at ih
      rw [splitOn_cons_eq, h]
      by_cases hc : c = sep <;>
        simp [hc, List.takeWhile_cons, ← ih]

theorem headI_get?_of_ne_nil {l : List (List Char)} (h : l ≠ []) :
    l.get? 0 = some l.headI := by
  cases l with
  | nil => exact absurd rfl h
  | cons a t => rfl

theorem padStart_length_of_le {w : Nat} {c : Char} {s : List Char} (h : s.length ≤ w) :
    (padStart w c s).length = w := by
  simp [padStart]
  omega

theorem mem_padStart {w : Nat} {c : Char} {s : List Char} {x : Char}
    (hx : x ∈ padStart w c s) : x = c ∨ x ∈ s := by
  rcases List.mem_append.mp hx with h | h
  · exact Or.inl (List.eq_of_mem_replicate h)
  · exact Or.inr h

theorem foldl_xor_acc (l : List Char) (acc : Nat) :
    l.foldl (fun a c => a ^^^ c.toNat) acc = acc ^^^ xorFold l := by
  induction l generalizing acc with
  | nil => simp [xorFold]
  | cons c t ih =>
    rw [List.foldl_cons]
    have h0 : xorFold (c :: t) = c.toNat ^^^ xorFold t := by
      show List.foldl (fun a c => a ^^^ c.toNat) (0 ^^^ c.toNat) t = _
      rw [ih, Nat.zero_xor]
    rw [ih, h0, Nat.xor_assoc]

theorem xorFold_cons (c : Char) (t : List Char) :
    xorFold (c :: t) = c.toNat ^^^ xorFold t := by
  show List.foldl (fun a c => a ^^^ c.toNat) (0 ^^^ c.toNat) t = _
  rw [foldl_xor_acc, Nat.zero_xor]

theorem xorFold_append (a b : List Char) :
    xorFold (a ++ b) = xorFold a ^^^ xorFold b := by
  show List.foldl (fun a c => a ^^^ c.toNat) 0 (a ++ b) = _
  rw [List.foldl_append, foldl_xor_acc]
  rfl

theorem xor_left_comm (a b c : Nat) : a ^^^ (b ^^^ c) = b ^^^ (a ^^^ c) := by
  rw [← Nat.xor_assoc, Nat.xor_comm a b, Nat.xor_assoc]

theorem xorFold_set {l : List Char} {i : Nat} (h : i < l.length) (y : Char) :
    xorFold (l.set i y) = xorFold l ^^^ (l.get ⟨i, h⟩).toNat ^^^ y.toNat := by
  induction l generalizing i with
  | nil => simp at h
  | cons c t ih =>
    cases i with
    | zero =>
      simp only [List.set_cons_zero, xorFold_cons, List.get]
      simp [Nat.xor_assoc, Nat.xor_comm, xor_left_comm, Nat.xor_cancel_left,
        Nat.xor_self, Nat.xor_zero, Nat.zero_xor]
    | succ j =>
      have hj : j < t.length := by simpa using h
      simp only [List.set_cons_succ, xorFold_cons, ih hj, List.get, Nat.xor_assoc]

theorem char_toNat_inj {c d : Char} (h : c.toNat = d.toNat) : c = d := by
  have := congrArg Char.ofNat h
  rwa [Char.ofNat_toNat, Char.ofNat_toNat] at this

theorem int_fdiv_eq_floor (n : Int) (d : Nat) (hd : 0 < d) :
    n.fdiv d = ⌊(n : ℚ) / (d : ℚ)⌋ := by
  have hd0 : (0 : Int) < (d : Int) := by exact_mod_cast hd
  rw [Int.fdiv_eq_ediv _ (le_of_lt hd0)]
  have hq : (0 : ℚ) < (d : ℚ) := by exact_mod_cast hd
  symm
  rw [Int.floor_eq_iff]
  have h1 : (d : Int) * (n / d) + n % d = n := Int.ediv_add_emod n d
  have h2 : 0 ≤ n % d := Int.emod_nonneg n (ne_of_gt hd0)
  have h3 : n % d < d := Int.emod_lt_of_pos n hd0
  have h1q : (d : ℚ) * ((n / (d : Int) : Int) : ℚ) + ((n % (d : Int) : Int) : ℚ) = (n : ℚ) := by
    exact_mod_cast congrArg (fun z : Int => (z : ℚ)) h1
  have h2q : (0 : ℚ) ≤ ((n % (d : Int) : Int) : ℚ) := by exact_mod_cast h2
  have h3q : ((n % (d : Int) : Int) : ℚ) < (d : ℚ) := by exact_mod_cast h3
  constructor
  · rw [le_div_iff₀ hq]
    nlinarith [h1q, h2q]
  · rw [div_lt_iff₀ hq]
    nlinarith [h1q, h3q]

end Nmea

namespace Nmea

theorem char_toNat_ofNat_of_lt {m : Nat} (h : m < 55296) : (Char.ofNat m).toNat = m := by
  have hv : m.isValidChar := Or.inl h
  simp [Char.ofNat, hv, Char.toNat, Char.ofNatAux, UInt32.toNat, BitVec.toNat_ofNatLt]

theorem digitChar_toNat {d : Nat} (h : d < 10) : (digitChar d).toNat = 48 + d :=
  char_toNat_ofNat_of_lt (by omega)

theorem digitVal_digitChar {d : Nat} (h : d < 10) : digitVal (digitChar d) = d := by
  simp [digitVal, digitChar_toNat h]

theorem isDigitChar_digitChar {d : Nat} (h : d < 10) : isDigitChar (digitChar d) = true := by
  simp [isDigitChar, digitChar_toNat h]
  omega

theorem ne_of_isDigitChar {c : Char} (h : isDigitChar c = true) (d : Char)
    (hd : isDigitChar d = false) : c ≠ d := fun he => by
  subst he
  rw [h] at hd
  cases hd

theorem ne_of_isHexDigitChar {c : Char} (h : isHexDigitChar c = true) (d : Char)
    (hd : isHexDigitChar d = false) : c ≠ d := fun he => by
  subst he
  rw [h] at hd
  cases hd

theorem not_isJsWs_of_isDigitChar {c : Char} (h : isDigitChar c = true) : isJsWs c = false := by
  simp only [isJsWs, decide_eq_false_iff_not]
  rintro (rfl | rfl | rfl | rfl | rfl | rfl) <;> exact absurd h (by decide)

theorem not_isJsWs_of_isHexDigitChar {c : Char} (h : isHexDigitChar c = true) :
    isJsWs c = false := by
  simp only [isJsWs, decide_eq_false_iff_not]
  rintro (rfl | rfl | rfl | rfl | rfl | rfl) <;> exact absurd h (by decide)

theorem hexDigitCharUpper_toNat {d : Nat} (h : d < 16) :
    (hexDigitCharUpper d).toNat = if d < 10 then 48 + d else 55 + d := by
  by_cases h10 : d < 10
  · rw [hexDigitCharUpper, if_pos h10, if_pos h10, char_toNat_ofNat_of_lt (by omega)]
  · rw [hexDigitCharUpper, if_neg h10, if_neg h10, char_toNat_ofNat_of_lt (by omega)]

theorem hexVal_hexDigitCharUpper {d : Nat} (h : d < 16) : hexVal (hexDigitCharUpper d) = d := by
  simp only [hexVal, hexDigitCharUpper_toNat h]
  split_ifs <;> omega

theorem isHexDigitChar_hexDigitCharUpper {d : Nat} (h : d < 16) :
    isHexDigitChar (hexDigitCharUpper d) = true := by
  simp only [isHexDigitChar, hexDigitCharUpper_toNat h, decide_eq_true_eq]
  split_ifs <;> omega

theorem mem_natDecAux : ∀ {fuel n : Nat} {c : Char}, c ∈ natDecAux fuel n →
    ∃ d, d < 10 ∧ c = digitChar d := by
  intro fuel
  induction fuel with
  | zero => intro n c hc; simp [natDecAux] at hc
  | succ f ih =>
    intro n c hc
    cases n with
    | zero => simp [natDecAux] at hc
    | succ m =>
      simp only [natDecAux, List.mem_append, List.mem_singleton] at hc
      rcases hc with hc | hc
      · exact ih hc
      · exact ⟨(m + 1) % 10, Nat.mod_lt _ (by norm_num), hc⟩

theorem mem_natDecimal {n : Nat} {c : Char} (hc : c ∈ natDecimal n) :
    ∃ d, d < 10 ∧ c = digitChar d := by
  by_cases h : n = 0
  · subst h
    simp [natDecimal] at hc
    exact ⟨0, by norm_num, by simp [hc]; rfl⟩
  · rw [natDecimal, if_neg h] at hc
    exact mem_natDecAux hc

theorem parse_natDecAux : ∀ fuel n acc, n ≤ fuel →
    (natDecAux fuel n).foldl (fun a c => a * 10 + digitVal c) acc =
      acc * 10 ^ (natDecAux fuel n).length + n := by
  intro fuel
  induction fuel with
  | zero =>
    intro n acc h
    have h0 : n = 0 := Nat.le_zero.mp h
    subst h0
    simp [natDecAux]
  | succ f ih =>
    intro n acc h
    cases n with
    | zero => simp [natDecAux]
    | succ m =>
      have hdiv : (m + 1) / 10 ≤ f := by
        have h1 : (m + 1) / 10 < m + 1 := Nat.div_lt_self (Nat.succ_pos m) (by norm_num)
        omega
      simp only [natDecAux, List.foldl_append, List.foldl_cons, List.foldl_nil,
        List.length_append, List.length_cons, List.length_nil]
      rw [ih _ _ hdiv, digitVal_digitChar (Nat.mod_lt _ (by norm_num))]
      have hdm : 10 * ((m + 1) / 10) + (m + 1) % 10 = m + 1 := Nat.div_add_mod (m + 1) 10
      generalize (natDecAux f ((m + 1) / 10)).length = L
      calc (acc * 10 ^ L + (m + 1) / 10) * 10 + (m + 1) % 10
      _ = acc * 10 ^ (L + (0 + 1)) + (10 * ((m + 1) / 10) + (m + 1) % 10) := by ring
      _ = acc * 10 ^ (L + (0 + 1)) + (m + 1) := by rw [hdm]

theorem parseDecDigits_natDecimal (n : Nat) : parseDecDigits (natDecimal n) = n := by
  by_cases h : n = 0
  · subst h; decide
  · rw [natDecimal, if_neg h]
    have := parse_natDecAux (n + 1) n 0 (Nat.le_succ n)
    simpa using this

theorem parseDecDigits_replicate_zero (k : Nat) (l : List Char) :
    parseDecDigits (List.replicate k '0' ++ l) = parseDecDigits l := by
  induction k with
  | zero => simp
  | succ j ih =>
    simp only [List.replicate_succ, List.cons_append, parseDecDigits, List.foldl_cons]
    have h0 : 0 * 10 + digitVal '0' = 0 := by decide
    rw [h0]
    exact ih

theorem parseDecDigits_padStart (w : Nat) (l : List Char) :
    parseDecDigits (padStart w '0' l) = parseDecDigits l :=
  parseDecDigits_replicate_zero _ _

theorem natDecAux_length_le : ∀ fuel n k, n < 10 ^ k → (natDecAux fuel n).length ≤ k := by
  intro fuel
  induction fuel with
  | zero => intro n k _; simp [natDecAux]
  | succ f ih =>
    intro n k h
    cases n with
    | zero => simp [natDecAux]
    | succ m =>
      cases k with
      | zero => simp at h
      | succ j =>
        have hj : (m + 1) / 10 < 10 ^ j := by
          rw [Nat.div_lt_iff_lt_mul (by norm_num)]
          calc m + 1 < 10 ^ (j + 1) := h
          _ = 10 ^ j * 10 := by rw [pow_succ]
        simp only [natDecAux, List.length_append, List.length_cons, List.length_nil]
        have := ih ((m + 1) / 10) j hj
        omega

theorem natDecimal_length_le {n k : Nat} (h : n < 10 ^ k) (hk : 0 < k) :
    (natDecimal n).length ≤ k := by
  by_cases h0 : n = 0
  · subst h0; simpa [natDecimal] using hk
  · rw [natDecimal, if_neg h0]; exact natDecAux_length_le _ _ _ h

theorem mem_natHexAux : ∀ {fuel n : Nat} {c : Char}, c ∈ natHexAux fuel n →
    ∃ d, d < 16 ∧ c = hexDigitCharUpper d := by
  intro fuel
  induction fuel with
  | zero => intro n c hc; simp [natHexAux] at hc
  | succ f ih =>
    intro n c hc
    cases n with
    | zero => simp [natHexAux] at hc
    | succ m =>
      simp only [natHexAux, List.mem_append, List.mem_singleton] at hc
      rcases hc with hc | hc
      · exact ih hc
      · exact ⟨(m + 1) % 16, Nat.mod_lt _ (by norm_num), hc⟩

theorem mem_natHexUpper {n : Nat} {c : Char} (hc : c ∈ natHexUpper n) :
    ∃ d, d < 16 ∧ c = hexDigitCharUpper d := by
  by_cases h : n = 0
  · subst h
    simp [natHexUpper] at hc
    exact ⟨0, by norm_num, by simp [hc]; rfl⟩
  · rw [natHexUpper, if_neg h] at hc
    exact mem_natHexAux hc

theorem parse_natHexAux : ∀ fuel n acc, n ≤ fuel →
    (natHexAux fuel n).foldl (fun a c => a * 16 + hexVal c) acc =
      acc * 16 ^ (natHexAux fuel n).length + n := by
  intro fuel
  induction fuel with
  | zero =>
    intro n acc h
    have h0 : n = 0 := Nat.le_zero.mp h
    subst h0
    simp [natHexAux]
  | succ f ih =>
    intro n acc h
    cases n with
    | zero => simp [natHexAux]
    | succ m =>
      have hdiv : (m + 1) / 16 ≤ f := by
        have h1 : (m + 1) / 16 < m + 1 := Nat.div_lt_self (Nat.succ_pos m) (by norm_num)
        omega
      simp only [natHexAux, List.foldl_append, List.foldl_cons, List.foldl_nil,
        List.length_append, List.length_cons, List.length_nil]
      rw [ih _ _ hdiv, hexVal_hexDigitCharUpper (Nat.mod_lt _ (by norm_num))]
      have hdm : 16 * ((m + 1) / 16) + (m + 1) % 16 = m + 1 := Nat.div_add_mod (m + 1) 16
      generalize (natHexAux f ((m + 1) / 16)).length = L
      calc (acc * 16 ^ L + (m + 1) / 16) * 16 + (m + 1) % 16
      _ = acc * 16 ^ (L + (0 + 1)) + (16 * ((m + 1) / 16) + (m + 1) % 16) := by ring
      _ = acc * 16 ^ (L + (0 + 1)) + (m + 1) := by rw [hdm]

theorem parseHexDigits_natHexUpper (n : Nat) : parseHexDigits (natHexUpper n) = n := by
  by_cases h : n = 0
  · subst h; decide
  · rw [natHexUpper, if_neg h]
    have := parse_natHexAux (n + 1) n 0 (Nat.le_succ n)
    simpa using this

theorem parseHexDigits_replicate_zero (k : Nat) (l : List Char) :
    parseHexDigits (List.replicate k '0' ++ l) = parseHexDigits l := by
  induction k with
  | zero => simp
  | succ j ih =>
    simp only [List.replicate_succ, List.cons_append, parseHexDigits, List.foldl_cons]
    have h0 : 0 * 16 + hexVal '0' = 0 := by decide
    rw [h0]
    exact ih

theorem natHexAux_length_le : ∀ fuel n k, n < 16 ^ k → (natHexAux fuel n).length ≤ k := by
  intro fuel
  induction fuel with
  | zero => intro n k _; simp [natHexAux]
  | succ f ih =>
    intro n k h
    cases n with
    | zero => simp [natHexAux]
    | succ m =>
      cases k with
      | zero => simp at h
      | succ j =>
        have hj : (m + 1) / 16 < 16 ^ j := by
          rw [Nat.div_lt_iff_lt_mul (by norm_num)]
          calc m + 1 < 16 ^ (j + 1) := h
          _ = 16 ^ j * 16 := by rw [pow_succ]
        simp only [natHexAux, List.length_append, List.length_cons, List.length_nil]
        have := ih ((m + 1) / 16) j hj
        omega

theorem natHexUpper_length_le {n k : Nat} (h : n < 16 ^ k) (hk : 0 < k) :
    (natHexUpper n).length ≤ k := by
  by_cases h0 : n = 0
  · subst h0; simpa [natHexUpper] using hk
  · rw [natHexUpper, if_neg h0]; exact natHexAux_length_le _ _ _ h

end Nmea

namespace Nmea

theorem takeWhile_append_not {p : Char → Bool} {A B : List Char} {c : Char}
    (hA : ∀ x ∈ A, p x = true) (hc : p c = false) :
    (A ++ c :: B).takeWhile p = A := by
  induction A with
  | nil => simp [List.takeWhile_cons, hc]
  | cons a t ih =>
    have ha : p a = true := hA a (by simp)
    simp [List.takeWhile_cons, ha, ih (fun x hx => hA x (by simp [hx]))]

theorem dropWhile_append_not {p : Char → Bool} {A B : List Char} {c : Char}
    (hA : ∀ x ∈ A, p x = true) (hc : p c = false) :
    (A ++ c :: B).dropWhile p = c :: B := by
  induction A with
  | nil => simp [List.dropWhile_cons, hc]
  | cons a t ih =>
    have ha : p a = true := hA a (by simp)
    simp [List.dropWhile_cons, ha, ih (fun x hx => hA x (by simp [hx]))]

theorem splitSign_of_head {c : Char} {t : List Char} (h1 : c ≠ '+') (h2 : c ≠ '-') :
    splitSign (c :: t) = (1, c :: t) := by
  unfold splitSign
  split
  · rename_i heq
    exact absurd (List.cons.inj heq).1 h1
  · rename_i heq
    exact absurd (List.cons.inj heq).1 h2
  · rfl

theorem stripHexPrefix_of {l : List Char} (h : ∀ c ∈ l, isHexDigitChar c = true) :
    stripHexPrefix l = l := by
  cases l with
  | nil => rfl
  | cons c1 r =>
    cases r with
    | nil =>
      unfold stripHexPrefix
      split
      · rename_i heq; simp at heq
      · rename_i heq; simp at heq
      · rfl
    | cons c2 t =>
      have h2 : isHexDigitChar c2 = true := h c2 (by simp)
      unfold stripHexPrefix
      split
      · rename_i heq
        exact absurd (List.cons.inj (List.cons.inj heq).2).1
          (ne_of_isHexDigitChar h2 'x' (by decide))
      · rename_i heq
        exact absurd (List.cons.inj (List.cons.inj heq).2).1
          (ne_of_isHexDigitChar h2 'X' (by decide))
      · rfl

theorem fracPart_dot (t : List Char) :
    fracPart ('.' :: t) = (t.takeWhile isDigitChar, t.dropWhile isDigitChar) := rfl

theorem jsParseIntDec_digits {l : List Char} (hne : l ≠ [])
    (hd : ∀ c ∈ l, isDigitChar c = true) :
    jsParseIntDec l = some ((parseDecDigits l : Nat) : Int) := by
  cases l with
  | nil => exact absurd rfl hne
  | cons c t =>
    have hc : isDigitChar c = true := hd c (by simp)
    have hws : (c :: t).dropWhile isJsWs = c :: t := by
      simp [List.dropWhile_cons, not_isJsWs_of_isDigitChar hc]
    have hsgn : splitSign (c :: t) = (1, c :: t) :=
      splitSign_of_head (ne_of_isDigitChar hc '+' (by decide))
        (ne_of_isDigitChar hc '-' (by decide))
    have htw : (c :: t).takeWhile isDigitChar = c :: t :=
      List.takeWhile_eq_self_iff.mpr hd
    simp [jsParseIntDec, hws, hsgn, htw, one_mul]

theorem jsParseIntHex_hexdigits {l : List Char} (hne : l ≠ [])
    (hd : ∀ c ∈ l, isHexDigitChar c = true) :
    jsParseIntHex l = some ((parseHexDigits l : Nat) : Int) := by
  cases l with
  | nil => exact absurd rfl hne
  | cons c t =>
    have hc : isHexDigitChar c = true := hd c (by simp)
    have hws : (c :: t).dropWhile isJsWs = c :: t := by
      simp [List.dropWhile_cons, not_isJsWs_of_isHexDigitChar hc]
    have hsgn : splitSign (c :: t) = (1, c :: t) :=
      splitSign_of_head (ne_of_isHexDigitChar hc '+' (by decide))
        (ne_of_isHexDigitChar hc '-' (by decide))
    have hstrip : stripHexPrefix (c :: t) = c :: t := stripHexPrefix_of hd
    have htw : (c :: t).takeWhile isHexDigitChar = c :: t :=
      List.takeWhile_eq_self_iff.mpr hd
    simp [jsParseIntHex, hws, hsgn, hstrip, htw, one_mul]

theorem jsParseFloat_intFrac {I F : List Char} (hne : I ≠ [])
    (hdI : ∀ c ∈ I, isDigitChar c = true) (hdF : ∀ c ∈ F, isDigitChar c = true) :
    jsParseFloat (I ++ '.' :: F) =
      some ⟨((parseDecDigits I * 10 ^ F.length + parseDecDigits F : Nat) : Int),
        10 ^ F.length⟩ := by
  cases I with
  | nil => exact absurd rfl hne
  | cons c t =>
    have hc : isDigitChar c = true := hdI c (by simp)
    have hws : List.dropWhile isJsWs (c :: (t ++ '.' :: F)) = c :: (t ++ '.' :: F) := by
      simp [List.dropWhile_cons, not_isJsWs_of_isDigitChar hc]
    have hsgn : splitSign (c :: (t ++ '.' :: F)) = (1, c :: (t ++ '.' :: F)) :=
      splitSign_of_head (ne_of_isDigitChar hc '+' (by decide))
        (ne_of_isDigitChar hc '-' (by decide))
    have htw : List.takeWhile isDigitChar (c :: (t ++ '.' :: F)) = c :: t := by
      simpa using takeWhile_append_not hdI (by decide : isDigitChar '.' = false)
    have hdw : List.dropWhile isDigitChar (c :: (t ++ '.' :: F)) = '.' :: F := by
      simpa using dropWhile_append_not hdI (by decide : isDigitChar '.' = false)
    have hFt : F.takeWhile isDigitChar = F := List.takeWhile_eq_self_iff.mpr hdF
    have hFd : F.dropWhile isDigitChar = [] := List.dropWhile_eq_nil_iff.mpr hdF
    simp [jsParseFloat, hws, hsgn, htw, hdw, fracPart_dot, hFt, hFd, expPart, one_mul]

end Nmea

namespace NmeaEncoder

theorem checksumLoop_eq {l : List Char} (h : ∀ c ∈ l, c ≠ '*') (acc : Nat) :
    checksumLoop acc l = acc ^^^ Nmea.xorFold l := by
  induction l generalizing acc with
  | nil => simp [checksumLoop, Nmea.xorFold]
  | cons c t ih =>
    have hc : c ≠ '*' := h c (by simp)
    simp only [checksumLoop, if_neg hc]
    rw [ih (fun x hx => h x (by simp [hx])), Nmea.xorFold_cons, Nat.xor_assoc]

end NmeaEncoder

deriving instance DecidableEq for Except

namespace Nmea

theorem Frac.toRat_ofInt (n : Int) : (Frac.ofInt n).toRat = (n : ℚ) := by
  simp [Frac.ofInt, Frac.toRat]

theorem Frac.toRat_add {a b : Frac} (ha : a.den ≠ 0) (hb : b.den ≠ 0) :
    (a.add b).toRat = a.toRat + b.toRat := by
  have ha' : ((a.den : ℚ)) ≠ 0 := Nat.cast_ne_zero.mpr ha
  have hb' : ((b.den : ℚ)) ≠ 0 := Nat.cast_ne_zero.mpr hb
  simp only [Frac.add, Frac.toRat]
  push_cast
  field_simp

theorem Frac.toRat_sub {a b : Frac} (ha : a.den ≠ 0) (hb : b.den ≠ 0) :
    (a.sub b).toRat = a.toRat - b.toRat := by
  have ha' : ((a.den : ℚ)) ≠ 0 := Nat.cast_ne_zero.mpr ha
  have hb' : ((b.den : ℚ)) ≠ 0 := Nat.cast_ne_zero.mpr hb
  simp only [Frac.sub, Frac.toRat]
  push_cast
  field_simp
  ring

theorem Frac.toRat_mul {a b : Frac} (ha : a.den ≠ 0) (hb : b.den ≠ 0) :
    (a.mul b).toRat = a.toRat * b.toRat := by
  have ha' : ((a.den : ℚ)) ≠ 0 := Nat.cast_ne_zero.mpr ha
  have hb' : ((b.den : ℚ)) ≠ 0 := Nat.cast_ne_zero.mpr hb
  simp only [Frac.mul, Frac.toRat]
  push_cast
  rw [div_mul_div_comm]

theorem Frac.toRat_neg (a : Frac) : a.neg.toRat = -a.toRat := by
  simp [Frac.neg, Frac.toRat, neg_div]

theorem Frac.toRat_abs (a : Frac) : a.abs.toRat = |a.toRat| := by
  simp only [Frac.abs, Frac.toRat]
  rw [abs_div, abs_of_nonneg (Nat.cast_nonneg a.den : (0 : ℚ) ≤ (a.den : ℚ))]
  congr 1
  rw [Int.cast_natCast, Int.cast_natAbs, Int.cast_abs]

theorem Frac.toRat_div_ofInt (a : Frac) {k : Int} (hk : 0 < k) :
    (a.div (Frac.ofInt k)).toRat = a.toRat / (k : ℚ) := by
  simp only [Frac.div, Frac.ofInt, Frac.toRat]
  rw [if_neg (by omega : ¬ k < 0)]
  have hcast : ((k.natAbs : Nat) : ℚ) = (k : ℚ) := by
    rw [← @Int.cast_natCast ℚ _ _, Int.natAbs_of_nonneg (le_of_lt hk)]
  push_cast
  rw [hcast, div_div]
  ring_nf

theorem Frac.nonneg_iff {a : Frac} (h : 0 < a.den) : a.nonneg = true ↔ 0 ≤ a.toRat := by
  have hq : (0 : ℚ) < (a.den : ℚ) := by exact_mod_cast h
  simp only [Frac.nonneg, Frac.toRat, decide_eq_true_eq]
  rw [le_div_iff₀ hq, zero_mul]
  exact_mod_cast Iff.rfl

theorem Frac.floor_eq {a : Frac} (h : 0 < a.den) : a.floor = ⌊a.toRat⌋ :=
  int_fdiv_eq_floor a.num a.den h

theorem toFixedRound_eq {p : Nat} {y : Frac} (h : 0 < y.den) (hnn : 0 ≤ y.num) :
    ((toFixedRound p y : Nat) : Int) = ⌊y.toRat * 10 ^ p + 1 / 2⌋ := by
  have hden : (0 : Nat) < y.den * 2 := by omega
  have hfl : Frac.floor ⟨y.num * (10 ^ p : Nat) * 2 + y.den, y.den * 2⟩ =
      ⌊y.toRat * 10 ^ p + 1 / 2⌋ := by
    rw [@Frac.floor_eq ⟨y.num * (10 ^ p : Nat) * 2 + y.den, y.den * 2⟩ hden]
    congr 1
    simp only [Frac.toRat]
    have hq : ((y.den : ℚ)) ≠ 0 := by positivity
    push_cast
    field_simp
  have hnn2 : 0 ≤ ⌊y.toRat * 10 ^ p + 1 / 2⌋ := by
    apply Int.floor_nonneg.mpr
    have : 0 ≤ y.toRat := by
      simp only [Frac.toRat]
      positivity
    positivity
  rw [toFixedRound, hfl, Int.toNat_of_nonneg hnn2]

end Nmea

namespace Nmea

theorem natDecimal_ne_nil (n : Nat) : natDecimal n ≠ [] := by
  by_cases h : n = 0
  · subst h; simp [natDecimal]
  · rw [natDecimal, if_neg h]
    cases n with
    | zero => exact absurd rfl h
    | succ m => simp [natDecAux]

theorem natHexUpper_ne_nil (n : Nat) : natHexUpper n ≠ [] := by
  by_cases h : n = 0
  · subst h; simp [natHexUpper]
  · rw [natHexUpper, if_neg h]
    cases n with
    | zero => exact absurd rfl h
    | succ m => simp [natHexAux]

theorem Frac.num_nonneg_of_toRat {a : Frac} (h : 0 < a.den) (ht : 0 ≤ a.toRat) :
    0 ≤ a.num := by
  have := (Frac.nonneg_iff h).mpr ht
  simpa [Frac.nonneg] using this

theorem isDigitChar_of_mem_pad_natDecimal {w m : Nat} {c : Char}
    (hc : c ∈ padStart w '0' (natDecimal m)) : isDigitChar c = true := by
  rcases mem_padStart hc with h | h
  · subst h; decide
  · obtain ⟨d, hd, rfl⟩ := mem_natDecimal h
    exact isDigitChar_digitChar hd

theorem coordField_main (L : Frac) (hden : 0 < L.den) (dw : Nat) (hdw : 0 < dw)
    (hub : |L.toRat| < 10 ^ dw) :
    ∃ mv : Frac,
      (NmeaEncoder.pad (Frac.ofInt L.abs.floor) dw).length = dw ∧
      (NmeaEncoder.pad ((L.abs.sub (Frac.ofInt L.abs.floor)).mul (Frac.ofInt 60)) 7 4).length = 7 ∧
      jsParseIntDec (NmeaEncoder.pad (Frac.ofInt L.abs.floor) dw) = some L.abs.floor ∧
      jsParseFloat
        (NmeaEncoder.pad ((L.abs.sub (Frac.ofInt L.abs.floor)).mul (Frac.ofInt 60)) 7 4) =
        some mv ∧
      0 < ((Frac.ofInt L.abs.floor).add (mv.div (Frac.ofInt 60))).den ∧
      |((Frac.ofInt L.abs.floor).add (mv.div (Frac.ofInt 60))).toRat - L.abs.toRat| ≤
        1 / 10000 := by
  have h104 : (10 : Nat) ^ 4 = 10000 := by norm_num
  have hdne : L.den ≠ 0 := Nat.pos_iff_ne_zero.mp hden
  -- the absolute value
  have habsden : L.abs.den = L.den := rfl
  have hA : L.abs.toRat = |L.toRat| := Frac.toRat_abs L
  have hAq0 : (0 : ℚ) ≤ |L.toRat| := abs_nonneg _
  -- the integer degree part
  have hdfloor : L.abs.floor = ⌊|L.toRat|⌋ := by
    rw [Frac.floor_eq (show 0 < L.abs.den from hden), hA]
  have hd0 : 0 ≤ L.abs.floor := by rw [hdfloor]; exact Int.floor_nonneg.mpr hAq0
  have hdub : L.abs.floor < 10 ^ dw := by
    rw [hdfloor]
    have h1 : (⌊|L.toRat|⌋ : ℚ) ≤ |L.toRat| := Int.floor_le _
    have : ((⌊|L.toRat|⌋ : Int) : ℚ) < ((10 ^ dw : Int) : ℚ) := by push_cast; linarith
    exact_mod_cast this
  -- the minutes fraction
  set deg := Frac.ofInt L.abs.floor with hdeg
  set minutes := (L.abs.sub deg).mul (Frac.ofInt 60) with hmin
  have hdegden : deg.den = 1 := by rw [hdeg]; rfl
  have hsubden : (L.abs.sub deg).den = L.den := by
    simp [Frac.sub, habsden, hdegden]
  have hmden : minutes.den = L.den := by
    simp [hmin, Frac.mul, hsubden, Frac.ofInt]
  have hmval : minutes.toRat = (|L.toRat| - ⌊|L.toRat|⌋) * 60 := by
    rw [hmin, Frac.toRat_mul (by rw [hsubden]; exact hdne) (by rw [show (Frac.ofInt 60).den = 1 from rfl]; exact one_ne_zero),
      Frac.toRat_sub (by rw [habsden]; exact hdne) (by rw [hdegden]; exact one_ne_zero),
      hA, hdeg, Frac.toRat_ofInt, Frac.toRat_ofInt, hdfloor]
    norm_num
  have hm0 : (0 : ℚ) ≤ minutes.toRat := by
    rw [hmval]
    have := Int.floor_le |L.toRat|
    nlinarith
  have hm60 : minutes.toRat < 60 := by
    rw [hmval]
    have := Int.lt_floor_add_one |L.toRat|
    nlinarith
  have hmnum : 0 ≤ minutes.num :=
    Frac.num_nonneg_of_toRat (by rw [hmden]; exact hden) hm0
  -- the rounded minutes value
  set n := toFixedRound 4 minutes with hn
  have hnval : ((n : Nat) : Int) = ⌊minutes.toRat * 10 ^ 4 + 1 / 2⌋ :=
    toFixedRound_eq (by rw [hmden]; exact hden) hmnum
  have hfl1 : (⌊minutes.toRat * 10 ^ 4 + 1 / 2⌋ : ℚ) ≤ minutes.toRat * 10 ^ 4 + 1 / 2 :=
    Int.floor_le _
  have hfl2 : minutes.toRat * 10 ^ 4 + 1 / 2 < (⌊minutes.toRat * 10 ^ 4 + 1 / 2⌋ : ℚ) + 1 :=
    Int.lt_floor_add_one _
  have hnq : |((n : Nat) : ℚ) - minutes.toRat * 10 ^ 4| ≤ 1 / 2 := by
    have hc : (((n : Nat) : Int) : ℚ) = ((⌊minutes.toRat * 10 ^ 4 + 1 / 2⌋ : Int) : ℚ) := by
      exact_mod_cast congrArg (fun z : Int => (z : ℚ)) hnval
    push_cast at hc
    rw [abs_le]
    constructor <;> nlinarith
  have hnub : n ≤ 600000 := by
    have h1 : ((n : Nat) : Int) < 600001 := by
      rw [hnval]
      rw [Int.floor_lt]
      push_cast
      nlinarith
    omega
  -- rendering of the minutes
  have hfix : jsToFixed 4 minutes = jsToFixedPos 4 minutes := by
    rw [jsToFixed, if_neg (by omega)]
  have hposr : jsToFixedPos 4 minutes =
      natDecimal (n / 10 ^ 4) ++ '.' :: padStart 4 '0' (natDecimal (n % 10 ^ 4)) := by
    rw [jsToFixedPos]
    simp only [← hn]
    rw [if_neg (by norm_num)]
  have hiplen : (natDecimal (n / 10 ^ 4)).length ≤ 2 := by
    apply natDecimal_length_le _ (by norm_num)
    have : n / 10 ^ 4 ≤ 60 := by rw [h104]; omega
    norm_num
    omega
  have hfraclen : (padStart 4 '0' (natDecimal (n % 10 ^ 4))).length = 4 := by
    apply padStart_length_of_le
    apply natDecimal_length_le _ (by norm_num)
    exact Nat.mod_lt _ (by norm_num)
  have hcontlen : (jsToFixed 4 minutes).length ≤ 7 := by
    rw [hfix, hposr]
    simp only [List.length_append, List.length_cons, hfraclen]
    omega
  have hBlen : (NmeaEncoder.pad minutes 7 4).length = 7 :=
    padStart_length_of_le hcontlen
  -- rendering of the degrees
  have hdegnum : (0 : Int) ≤ deg.num := by rw [hdeg]; exact hd0
  have hdegfix : jsToFixed 0 deg = jsToFixedPos 0 deg := by
    rw [jsToFixed, if_neg (by omega)]
  have hdeground : toFixedRound 0 deg = L.abs.floor.toNat := by
    have h1 : ((toFixedRound 0 deg : Nat) : Int) = ⌊deg.toRat * 10 ^ 0 + 1 / 2⌋ :=
      toFixedRound_eq (by rw [hdeg]; simp [Frac.ofInt]) hdegnum
    have h2 : deg.toRat = (L.abs.floor : ℚ) := by rw [hdeg, Frac.toRat_ofInt]
    have h3 : ⌊(L.abs.floor : ℚ) * 10 ^ 0 + 1 / 2⌋ = L.abs.floor := by
      rw [Int.floor_eq_iff]
      constructor <;> [skip; skip] <;> push_cast <;> norm_num
    rw [h2, h3] at h1
    omega
  have hdegpos : jsToFixedPos 0 deg = natDecimal L.abs.floor.toNat := by
    rw [jsToFixedPos]
    simp [hdeground]
  have hdeglen : (natDecimal L.abs.floor.toNat).length ≤ dw := by
    apply natDecimal_length_le _ hdw
    have : (L.abs.floor.toNat : Int) < ((10 ^ dw : Nat) : Int) := by
      rw [Int.toNat_of_nonneg hd0]; exact_mod_cast hdub
    exact_mod_cast this
  have hAlen : (NmeaEncoder.pad deg dw).length = dw := by
    apply padStart_length_of_le
    rw [hdegfix, hdegpos]
    exact hdeglen
  -- parsing the degrees back
  have hAparse : jsParseIntDec (NmeaEncoder.pad deg dw) = some L.abs.floor := by
    rw [NmeaEncoder.pad, hdegfix, hdegpos]
    rw [jsParseIntDec_digits
      (by simp [padStart, natDecimal_ne_nil])
      (fun c hc => isDigitChar_of_mem_pad_natDecimal hc)]
    rw [parseDecDigits_padStart, parseDecDigits_natDecimal, Int.toNat_of_nonneg hd0]
  -- parsing the minutes back
  have hBform : ∃ k, NmeaEncoder.pad minutes 7 4 =
      (List.replicate k '0' ++ natDecimal (n / 10 ^ 4)) ++
        '.' :: padStart 4 '0' (natDecimal (n % 10 ^ 4)) := by
    refine ⟨7 - (natDecimal (n / 10 ^ 4) ++
      '.' :: padStart 4 '0' (natDecimal (n % 10 ^ 4))).length, ?_⟩
    rw [NmeaEncoder.pad, padStart, hfix, hposr]
    simp [List.append_assoc]
  obtain ⟨k, hBform⟩ := hBform
  have hBparse : jsParseFloat (NmeaEncoder.pad minutes 7 4) = some ⟨((n : Nat) : Int), 10 ^ 4⟩ := by
    rw [hBform]
    rw [jsParseFloat_intFrac
      (by simp [natDecimal_ne_nil])
      (fun c hc => by
        rcases List.mem_append.mp hc with h | h
        · have : c = '0' := List.eq_of_mem_replicate h
          subst this; decide
        · obtain ⟨d, hd, rfl⟩ := mem_natDecimal h
          exact isDigitChar_digitChar hd)
      (fun c hc => isDigitChar_of_mem_pad_natDecimal hc)]
    congr 1
    have hI : parseDecDigits
        (List.replicate k '0' ++ natDecimal (n / 10 ^ 4)) =
        n / 10 ^ 4 := by
      rw [parseDecDigits_replicate_zero, parseDecDigits_natDecimal]
    have hF : parseDecDigits (padStart 4 '0' (natDecimal (n % 10 ^ 4))) = n % 10 ^ 4 := by
      rw [parseDecDigits_padStart, parseDecDigits_natDecimal]
    rw [hfraclen, hI, hF]
    congr 1
    have : n / 10 ^ 4 * 10 ^ 4 + n % 10 ^ 4 = n := by
      have := Nat.div_add_mod n (10 ^ 4)
      omega
    exact_mod_cast congrArg (fun m : Nat => (m : Int)) this
  -- the decoded value and its distance to the coordinate
  refine ⟨⟨((n : Nat) : Int), 10 ^ 4⟩, hAlen, hBlen, hAparse, hBparse,
    by simp only [Frac.add, Frac.div, Frac.ofInt, hdegden]; norm_num, ?_⟩
  have hq : (deg.add
      ((⟨((n : Nat) : Int), 10 ^ 4⟩ : Frac).div (Frac.ofInt 60))).toRat =
      (L.abs.floor : ℚ) + ((n : Nat) : ℚ) / 10 ^ 4 / 60 := by
    rw [hdeg]
    rw [Frac.toRat_add (by simp only [Frac.ofInt]; norm_num)
        (by simp only [Frac.div, Frac.ofInt]; norm_num),
      Frac.toRat_ofInt, Frac.toRat_div_ofInt _ (by norm_num : (0 : Int) < 60)]
    have : (⟨((n : Nat) : Int), 10 ^ 4⟩ : Frac).toRat = ((n : Nat) : ℚ) / 10 ^ 4 := by
      simp [Frac.toRat]
      norm_num
    rw [this]
    norm_num
  rw [hq, hdfloor, hA]
  have hAid : |L.toRat| = (⌊|L.toRat|⌋ : ℚ) + minutes.toRat / 60 := by
    rw [hmval]; ring
  obtain ⟨hl, hr⟩ := abs_le.mp hnq
  rw [abs_le]
  constructor <;> linarith [hAid]

end Nmea

namespace Nmea

open NmeaEncoder NmeaDecoder

theorem parseLatitude_some {raw : List Char} (h : raw ≠ []) (dir : Option (List Char)) :
    parseLatitude (some raw) dir =
      match jsParseIntDec (raw.take 2), jsParseFloat (raw.drop 2) with
      | some deg, some min =>
        some (if dir = some ['S'] then ((Frac.ofInt deg).add (min.div (Frac.ofInt 60))).neg
              else (Frac.ofInt deg).add (min.div (Frac.ofInt 60)))
      | _, _ => none := by
  cases raw with
  | nil => exact absurd rfl h
  | cons c t => rfl

theorem parseLongitude_some {raw : List Char} (h : raw ≠ []) (dir : Option (List Char)) :
    parseLongitude (some raw) dir =
      match jsParseIntDec (raw.take 3), jsParseFloat (raw.drop 3) with
      | some deg, some min =>
        some (if dir = some ['W'] then ((Frac.ofInt deg).add (min.div (Frac.ofInt 60))).neg
              else (Frac.ofInt deg).add (min.div (Frac.ofInt 60)))
      | _, _ => none := by
  cases raw with
  | nil => exact absurd rfl h
  | cons c t => rfl

theorem claim1_lat (L : Frac) (hden : 0 < L.den) (h1 : -90 ≤ L.toRat) (h2 : L.toRat ≤ 90) :
    formatLatitude L =
      (formatLatitude L).take 9 ++ ',' :: (formatLatitude L).drop 10 ∧
    ∃ q : Frac, parseLatitude (some ((formatLatitude L).take 9))
        (some ((formatLatitude L).drop 10)) = some q ∧
      |q.toRat - L.toRat| ≤ 1 / 10000 := by
  have hub : |L.toRat| < 10 ^ 2 := by
    have h3 := abs_le.mpr ⟨by linarith, h2⟩
    have : (10 : ℚ) ^ 2 = 100 := by norm_num
    rw [this]
    linarith
  obtain ⟨mv, hAlen, hBlen, hAparse, hBparse, hqden, hbound⟩ :=
    coordField_main L hden 2 (by norm_num) hub
  set A := NmeaEncoder.pad (Frac.ofInt L.abs.floor) 2 with hAdef
  set B := NmeaEncoder.pad ((L.abs.sub (Frac.ofInt L.abs.floor)).mul (Frac.ofInt 60)) 7 4
    with hBdef
  have hfmt : formatLatitude L = A ++ B ++ ',' :: [if L.nonneg then 'N' else 'S'] := rfl
  have hlen9 : (A ++ B).length = 9 := by rw [List.length_append, hAlen, hBlen]
  have htake9 : (formatLatitude L).take 9 = A ++ B := by
    rw [hfmt, ← hlen9, List.take_left]
  have hdrop10 : (formatLatitude L).drop 10 = [if L.nonneg then 'N' else 'S'] := by
    rw [hfmt]
    have h10 : (10 : Nat) = 9 + 1 := rfl
    rw [h10, ← List.drop_drop, ← hlen9, List.drop_left]
    rfl
  refine ⟨by rw [htake9, hdrop10, hfmt], ?_⟩
  rw [htake9, hdrop10]
  have hne : A ++ B ≠ [] := by
    intro hc
    have := congrArg List.length hc
    rw [hlen9] at this
    simp at this
  have htk2 : (A ++ B).take 2 = A := by rw [← hAlen, List.take_left]
  have hdp2 : (A ++ B).drop 2 = B := by rw [← hAlen, List.drop_left]
  have hval : ∀ dir : Option (List Char), parseLatitude (some (A ++ B)) dir =
      some (if dir = some ['S']
            then ((Frac.ofInt L.abs.floor).add (mv.div (Frac.ofInt 60))).neg
            else (Frac.ofInt L.abs.floor).add (mv.div (Frac.ofInt 60))) := by
    intro dir
    rw [parseLatitude_some hne dir, htk2, hdp2, hAparse, hBparse]
  by_cases hnn : L.nonneg = true
  · rw [if_pos hnn, hval, if_neg (by decide : ¬((some ['N'] : Option (List Char)) = some ['S']))]
    refine ⟨_, rfl, ?_⟩
    have h0 : (0 : ℚ) ≤ L.toRat := (Frac.nonneg_iff hden).mp hnn
    have habs : L.abs.toRat = L.toRat := by rw [Frac.toRat_abs, abs_of_nonneg h0]
    rw [habs] at hbound
    exact hbound
  · rw [if_neg hnn, hval, if_pos rfl]
    refine ⟨_, rfl, ?_⟩
    have h0 : L.toRat < 0 := by
      by_contra hc
      push_neg at hc
      exact hnn ((Frac.nonneg_iff hden).mpr hc)
    have habs : L.abs.toRat = -L.toRat := by rw [Frac.toRat_abs, abs_of_neg h0]
    rw [habs] at hbound
    rw [Frac.toRat_neg]
    have hswap : -((Frac.ofInt L.abs.floor).add (mv.div (Frac.ofInt 60))).toRat - L.toRat =
        -(((Frac.ofInt L.abs.floor).add (mv.div (Frac.ofInt 60))).toRat - -L.toRat) := by ring
    rw [hswap, abs_neg]
    exact hbound

theorem claim1_lon (G : Frac) (hden : 0 < G.den) (h1 : -180 ≤ G.toRat) (h2 : G.toRat ≤ 180) :
    formatLongitude G =
      (formatLongitude G).take 10 ++ ',' :: (formatLongitude G).drop 11 ∧
    ∃ q : Frac, parseLongitude (some ((formatLongitude G).take 10))
        (some ((formatLongitude G).drop 11)) = some q ∧
      |q.toRat - G.toRat| ≤ 1 / 10000 := by
  have hub : |G.toRat| < 10 ^ 3 := by
    have h3 := abs_le.mpr ⟨by linarith, h2⟩
    have : (10 : ℚ) ^ 3 = 1000 := by norm_num
    rw [this]
    linarith
  obtain ⟨mv, hAlen, hBlen, hAparse, hBparse, hqden, hbound⟩ :=
    coordField_main G hden 3 (by norm_num) hub
  set A := NmeaEncoder.pad (Frac.ofInt G.abs.floor) 3 with hAdef
  set B := NmeaEncoder.pad ((G.abs.sub (Frac.ofInt G.abs.floor)).mul (Frac.ofInt 60)) 7 4
    with hBdef
  have hfmt : formatLongitude G = A ++ B ++ ',' :: [if G.nonneg then 'E' else 'W'] := rfl
  have hlen10 : (A ++ B).length = 10 := by rw [List.length_append, hAlen, hBlen]
  have htake10 : (formatLongitude G).take 10 = A ++ B := by
    rw [hfmt, ← hlen10, List.take_left]
  have hdrop11 : (formatLongitude G).drop 11 = [if G.nonneg then 'E' else 'W'] := by
    rw [hfmt]
    have h11 : (11 : Nat) = 10 + 1 := rfl
    rw [h11, ← List.drop_drop, ← hlen10, List.drop_left]
    rfl
  refine ⟨by rw [htake10, hdrop11, hfmt], ?_⟩
  rw [htake10, hdrop11]
  have hne : A ++ B ≠ [] := by
    intro hc
    have := congrArg List.length hc
    rw [hlen10] at this
    simp at this
  have htk3 : (A ++ B).take 3 = A := by rw [← hAlen, List.take_left]
  have hdp3 : (A ++ B).drop 3 = B := by rw [← hAlen, List.drop_left]
  have hval : ∀ dir : Option (List Char), parseLongitude (some (A ++ B)) dir =
      some (if dir = some ['W']
            then ((Frac.ofInt G.abs.floor).add (mv.div (Frac.ofInt 60))).neg
            else (Frac.ofInt G.abs.floor).add (mv.div (Frac.ofInt 60))) := by
    intro dir
    rw [parseLongitude_some hne dir, htk3, hdp3, hAparse, hBparse]
  by_cases hnn : G.nonneg = true
  · rw [if_pos hnn, hval, if_neg (by decide : ¬((some ['E'] : Option (List Char)) = some ['W']))]
    refine ⟨_, rfl, ?_⟩
    have h0 : (0 : ℚ) ≤ G.toRat := (Frac.nonneg_iff hden).mp hnn
    have habs : G.abs.toRat = G.toRat := by rw [Frac.toRat_abs, abs_of_nonneg h0]
    rw [habs] at hbound
    exact hbound
  · rw [if_neg hnn, hval, if_pos rfl]
    refine ⟨_, rfl, ?_⟩
    have h0 : G.toRat < 0 := by
      by_contra hc
      push_neg at hc
      exact hnn ((Frac.nonneg_iff hden).mpr hc)
    have habs : G.abs.toRat = -G.toRat := by rw [Frac.toRat_abs, abs_of_neg h0]
    rw [habs] at hbound
    rw [Frac.toRat_neg]
    have hswap : -((Frac.ofInt G.abs.floor).add (mv.div (Frac.ofInt 60))).toRat - G.toRat =
        -(((Frac.ofInt G.abs.floor).add (mv.div (Frac.ofInt 60))).toRat - -G.toRat) := by ring
    rw [hswap, abs_neg]
    exact hbound

end Nmea

open Nmea NmeaEncoder NmeaDecoder in
/-- C1: for every latitude L in [-90, 90], the coordinate field pair produced
by the encoder's latitude formatter (two-digit zero-padded degrees, minutes
fixed-point with four decimals zero-padded to width 7, and the hemisphere
letter after the comma) decodes through the decoder's parseLatitude to a
value within 1e-4 degrees of L; likewise for every longitude G in
[-180, 180] via the three-digit-degree longitude formatter and
parseLongitude.  Coordinates are quantified as exact fractions with a
positive denominator, the rational model of a finite JS number. -/
theorem claim1_coordinate_roundtrip :
    (∀ L : Frac, 0 < L.den → -90 ≤ L.toRat → L.toRat ≤ 90 →
      formatLatitude L =
        (formatLatitude L).take 9 ++ ',' :: (formatLatitude L).drop 10 ∧
      ∃ q : Frac, parseLatitude (some ((formatLatitude L).take 9))
          (some ((formatLatitude L).drop 10)) = some q ∧
        |q.toRat - L.toRat| ≤ 1 / 10000) ∧
    (∀ G : Frac, 0 < G.den → -180 ≤ G.toRat → G.toRat ≤ 180 →
      formatLongitude G =
        (formatLongitude G).take 10 ++ ',' :: (formatLongitude G).drop 11 ∧
      ∃ q : Frac, parseLongitude (some ((formatLongitude G).take 10))
          (some ((formatLongitude G).drop 11)) = some q ∧
        |q.toRat - G.toRat| ≤ 1 / 10000) :=
  ⟨fun L hden h1 h2 => Nmea.claim1_lat L hden h1 h2,
   fun G hden h1 h2 => Nmea.claim1_lon G hden h1 h2⟩

open Nmea NmeaEncoder NmeaDecoder in
/-- Witness for C1 at the concrete latitude 45.5 = 91/2 and the concrete
longitude -123.4 = -1234/10, discharging the positivity and range
hypotheses there. -/
theorem claim1_coordinate_roundtrip_witness :
    (formatLatitude ⟨91, 2⟩ =
        (formatLatitude ⟨91, 2⟩).take 9 ++ ',' :: (formatLatitude ⟨91, 2⟩).drop 10 ∧
      ∃ q : Frac, parseLatitude (some ((formatLatitude ⟨91, 2⟩).take 9))
          (some ((formatLatitude ⟨91, 2⟩).drop 10)) = some q ∧
        |q.toRat - (⟨91, 2⟩ : Frac).toRat| ≤ 1 / 10000) ∧
    (formatLongitude ⟨-1234, 10⟩ =
        (formatLongitude ⟨-1234, 10⟩).take 10 ++ ',' ::
          (formatLongitude ⟨-1234, 10⟩).drop 11 ∧
      ∃ q : Frac, parseLongitude (some ((formatLongitude ⟨-1234, 10⟩).take 10))
          (some ((formatLongitude ⟨-1234, 10⟩).drop 11)) = some q ∧
        |q.toRat - (⟨-1234, 10⟩ : Frac).toRat| ≤ 1 / 10000) :=
  ⟨claim1_coordinate_roundtrip.1 ⟨91, 2⟩ (by norm_num)
      (by norm_num [Nmea.Frac.toRat]) (by norm_num [Nmea.Frac.toRat]),
   claim1_coordinate_roundtrip.2 ⟨-1234, 10⟩ (by norm_num)
      (by norm_num [Nmea.Frac.toRat]) (by norm_num [Nmea.Frac.toRat])⟩

namespace NmeaEncoder

theorem checksumLoop_stop {l r : List Char} (h : ∀ c ∈ l, c ≠ '*') (acc : Nat) :
    checksumLoop acc (l ++ '*' :: r) = acc ^^^ Nmea.xorFold l := by
  induction l generalizing acc with
  | nil => simp [checksumLoop, Nmea.xorFold]
  | cons c t ih =>
    have hc : c ≠ '*' := h c (by simp)
    simp only [List.cons_append, checksumLoop, if_neg hc, List.append_eq]
    rw [ih (fun x hx => h x (by simp [hx])), Nmea.xorFold_cons, Nat.xor_assoc]

end NmeaEncoder

namespace Nmea

theorem xorFold_lt_two_pow {l : List Char} {k : Nat} (h : ∀ c ∈ l, c.toNat < 2 ^ k) :
    xorFold l < 2 ^ k := by
  induction l with
  | nil =>
    show (0 : Nat) < 2 ^ k
    positivity
  | cons c t ih =>
    rw [xorFold_cons]
    exact Nat.xor_lt_two_pow (h c (by simp)) (ih (fun x hx => h x (by simp [hx])))

end Nmea

open Nmea NmeaEncoder NmeaDecoder in
/-- C3 (amended): for every `*`-free sentence body, the value computed by the
encoder checksum routine on `$ body * rest` and by the decoder routine on
`body` is the XOR-fold of the code points of the characters strictly between
the `$` and the `*`; when every such character has a code point below 256
(in particular for the ASCII alphabet of NMEA sentences) the value is 8-bit
and the encoder renders it as `*` followed by exactly two uppercase
hexadecimal digits, zero-padded.  (The 8-bit and two-digit parts are false
for arbitrary JS strings, see the counterexample.) -/
theorem claim3_checksum_contract :
    ∀ body rest : List Char, (∀ c ∈ body, c ≠ '*') →
      NmeaEncoder.calculateChecksum ('$' :: body ++ '*' :: rest) =
        '*' :: padStart 2 '0' (natHexUpper (xorFold body)) ∧
      NmeaDecoder.calculateChecksum body = xorFold body ∧
      ((∀ c ∈ body, c.toNat < 256) →
        xorFold body < 256 ∧
        (padStart 2 '0' (natHexUpper (xorFold body))).length = 2 ∧
        ∀ c ∈ padStart 2 '0' (natHexUpper (xorFold body)),
          (48 ≤ c.toNat ∧ c.toNat ≤ 57) ∨ (65 ≤ c.toNat ∧ c.toNat ≤ 70)) := by
  intro body rest hstar
  refine ⟨?_, rfl, ?_⟩
  · rw [NmeaEncoder.calculateChecksum]
    have hdrop : ('$' :: body ++ '*' :: rest).drop 1 = body ++ '*' :: rest := rfl
    rw [hdrop, checksumLoop_stop hstar, Nat.zero_xor]
  · intro h256
    have h2 : (256 : Nat) = 2 ^ 8 := by norm_num
    have hlt : xorFold body < 256 := by
      rw [h2]
      exact xorFold_lt_two_pow (fun c hc => by rw [← h2]; exact h256 c hc)
    refine ⟨hlt, ?_, ?_⟩
    · apply padStart_length_of_le
      apply natHexUpper_length_le _ (by norm_num)
      calc xorFold body < 256 := hlt
      _ = 16 ^ 2 := by norm_num
    · intro c hc
      rcases mem_padStart hc with h | h
      · subst h; left; constructor <;> decide
      · obtain ⟨d, hd, rfl⟩ := mem_natHexUpper h
        rw [hexDigitCharUpper_toNat hd]
        split_ifs <;> omega

open Nmea NmeaEncoder in
set_option maxRecDepth 40000 in
/-- Counterexample to C3 as stated: the claim quantifies over every sentence
body, but for the body consisting of the single character `Ā` (code point
256) the XOR value is 256, which is not an 8-bit value, and the encoder
renders it as three hexadecimal digits `100` rather than exactly two. -/
theorem claim3_counterexample :
    NmeaEncoder.calculateChecksum ['$', 'Ā'] = ['*', '1', '0', '0'] ∧
    checksumLoop 0 ['Ā'] = 256 ∧ ¬(256 : Nat) < 256 ∧
    ¬(NmeaEncoder.calculateChecksum ['$', 'Ā']).length = 3 := by
  refine ⟨by decide, by decide, by decide, by decide⟩

open Nmea NmeaEncoder NmeaDecoder in
/-- Witness for C3 (amended) at the concrete body `GPGGA` and trailing
characters `47`, with the star-freeness and code-point hypotheses
discharged by computation. -/
theorem claim3_checksum_contract_witness :
    NmeaEncoder.calculateChecksum ('$' :: "GPGGA".toList ++ '*' :: "47".toList) =
      '*' :: padStart 2 '0' (natHexUpper (xorFold "GPGGA".toList)) ∧
    NmeaDecoder.calculateChecksum "GPGGA".toList = xorFold "GPGGA".toList ∧
    ((∀ c ∈ "GPGGA".toList, c.toNat < 256) →
      xorFold "GPGGA".toList < 256 ∧
      (padStart 2 '0' (natHexUpper (xorFold "GPGGA".toList))).length = 2 ∧
      ∀ c ∈ padStart 2 '0' (natHexUpper (xorFold "GPGGA".toList)),
        (48 ≤ c.toNat ∧ c.toNat ≤ 57) ∨ (65 ≤ c.toNat ∧ c.toNat ≤ 70)) :=
  claim3_checksum_contract "GPGGA".toList "47".toList (by decide)

open Nmea NmeaEncoder in
/-- C8: both generators resolve the encoded time by the same precedence
rule realised by `resolveTime`: an explicit `options.timestamp` wins, else
`position.timestamp`, else the ambient wall clock `now`; consequently with
`options.timestamp` set the generated sentence is independent of
`position.timestamp` and of the wall clock. -/
theorem claim8_time_resolution :
    (∀ (pos : TrackPosition) (o : EncodeOptions) (now t : Int),
      o.timestamp = some t → resolveTime pos (some o) now = t) ∧
    (∀ (pos : TrackPosition) (o : EncodeOptions) (now u : Int),
      o.timestamp = none → pos.timestamp = some u → resolveTime pos (some o) now = u) ∧
    (∀ (pos : TrackPosition) (now u : Int),
      pos.timestamp = some u → resolveTime pos none now = u) ∧
    (∀ (pos : TrackPosition) (o : EncodeOptions) (now : Int),
      o.timestamp = none → pos.timestamp = none → resolveTime pos (some o) now = now) ∧
    (∀ (pos : TrackPosition) (now : Int),
      pos.timestamp = none → resolveTime pos none now = now) ∧
    (∀ (pos : TrackPosition) (o : EncodeOptions) (now now' : Int)
      (ts ts' : Option Int) (t : Int), o.timestamp = some t →
      generateGPRMC { pos with timestamp := ts } (some o) now =
        generateGPRMC { pos with timestamp := ts' } (some o) now' ∧
      generateGPGGA { pos with timestamp := ts } (some o) now =
        generateGPGGA { pos with timestamp := ts' } (some o) now') := by
  refine ⟨?_, ?_, ?_, ?_, ?_, ?_⟩
  · intro pos o now t h
    simp [resolveTime, h]
  · intro pos o now u h1 h2
    simp [resolveTime, h1, h2]
  · intro pos now u h
    simp [resolveTime, h]
  · intro pos o now h1 h2
    simp [resolveTime, h1, h2]
  · intro pos now h
    simp [resolveTime, h]
  · intro pos o now now' ts ts' t h
    constructor <;> simp [generateGPRMC, generateGPGGA, resolveTime, h]

open Nmea NmeaEncoder in
/-- Witness for C8 at concrete positions, options and clocks. -/
theorem claim8_time_resolution_witness :
    resolveTime ⟨⟨0, 1⟩, ⟨0, 1⟩, ⟨0, 1⟩, ⟨0, 1⟩, ⟨0, 1⟩, some 7⟩ (some ⟨some 5, none⟩) 99 = 5 ∧
    resolveTime ⟨⟨0, 1⟩, ⟨0, 1⟩, ⟨0, 1⟩, ⟨0, 1⟩, ⟨0, 1⟩, some 7⟩ (some ⟨none, none⟩) 99 = 7 ∧
    resolveTime ⟨⟨0, 1⟩, ⟨0, 1⟩, ⟨0, 1⟩, ⟨0, 1⟩, ⟨0, 1⟩, some 7⟩ none 99 = 7 ∧
    resolveTime ⟨⟨0, 1⟩, ⟨0, 1⟩, ⟨0, 1⟩, ⟨0, 1⟩, ⟨0, 1⟩, none⟩ (some ⟨none, none⟩) 99 = 99 ∧
    resolveTime ⟨⟨0, 1⟩, ⟨0, 1⟩, ⟨0, 1⟩, ⟨0, 1⟩, ⟨0, 1⟩, none⟩ none 99 = 99 ∧
    (generateGPRMC { (⟨⟨0, 1⟩, ⟨0, 1⟩, ⟨0, 1⟩, ⟨0, 1⟩, ⟨0, 1⟩, none⟩ : TrackPosition) with
          timestamp := some 11 } (some ⟨some 5, none⟩) 99 =
        generateGPRMC { (⟨⟨0, 1⟩, ⟨0, 1⟩, ⟨0, 1⟩, ⟨0, 1⟩, ⟨0, 1⟩, none⟩ : TrackPosition) with
          timestamp := some 22 } (some ⟨some 5, none⟩) 3 ∧
      generateGPGGA { (⟨⟨0, 1⟩, ⟨0, 1⟩, ⟨0, 1⟩, ⟨0, 1⟩, ⟨0, 1⟩, none⟩ : TrackPosition) with
          timestamp := some 11 } (some ⟨some 5, none⟩) 99 =
        generateGPGGA { (⟨⟨0, 1⟩, ⟨0, 1⟩, ⟨0, 1⟩, ⟨0, 1⟩, ⟨0, 1⟩, none⟩ : TrackPosition) with
          timestamp := some 22 } (some ⟨some 5, none⟩) 3) :=
  ⟨claim8_time_resolution.1 _ _ _ _ rfl,
   claim8_time_resolution.2.1 _ _ _ _ rfl rfl,
   claim8_time_resolution.2.2.1 _ _ _ rfl,
   claim8_time_resolution.2.2.2.1 _ _ _ rfl rfl,
   claim8_time_resolution.2.2.2.2.1 _ _ rfl,
   claim8_time_resolution.2.2.2.2.2 _ _ _ _ (some 11) (some 22) _ rfl⟩

namespace NmeaDecoder

open Nmea

theorem parseNmeaSentence_split {a b : List Char} (ha : ∀ c ∈ a, c ≠ '*') (flag : Bool) :
    parseNmeaSentence ('$' :: (a ++ '*' :: b)) flag =
      if flag then
        (if jsParseIntHex (b.takeWhile (fun c => !(c = '*'))) =
            some ((calculateChecksum a : Nat) : Int)
         then parseBody a else .error .checksumMismatch)
      else
        (if regexOk ('$' :: (a ++ '*' :: b)) then parseBody a
         else .error .unableToExtract) := by
  have hcond : ¬¬(('$' :: (a ++ '*' :: b)).head? = some '$' ∧
      ('$' :: (a ++ '*' :: b)).contains '*' = true) :=
    not_not_intro ⟨rfl, by simp⟩
  have hdrop : ('$' :: (a ++ '*' :: b)).drop 1 = a ++ '*' :: b := rfl
  have hsplit : splitOn '*' (a ++ '*' :: b) = a :: splitOn '*' b := splitOn_append ha
  have hcs : (a :: splitOn '*' b).get? 1 = some (b.takeWhile (fun c => !(c = '*'))) := by
    show (splitOn '*' b).get? 0 = _
    rw [headI_get?_of_ne_nil (splitOn_ne_nil '*' b), splitOn_headI]
  cases flag with
  | false =>
    rw [parseNmeaSentence, if_neg hcond]
    simp only [hdrop, hsplit, List.headI]
    simp
  | true =>
    rw [parseNmeaSentence, if_neg hcond]
    simp only [hdrop, hsplit, hcs, List.headI]
    simp

end NmeaDecoder

namespace NmeaDecoder

open Nmea

theorem parseBody_cases (a : List Char) :
    (∃ g, parseBody a = .ok (.gga g)) ∨ (∃ r, parseBody a = .ok (.rmc r)) ∨
    parseBody a = .error (.unsupportedSentenceType ((splitOn ',' a).headI.drop 2)) ∨
    (parseBody a = .error .typeError ∧ (splitOn ',' a).headI.drop 2 = ['R', 'M', 'C'] ∧
      ((splitOn ',' a).get? 9 = none ∨ (splitOn ',' a).get? 1 = none)) := by
  rw [parseBody]
  by_cases h1 : (splitOn ',' a).headI.drop 2 = ['G', 'G', 'A']
  · rw [if_pos h1]
    exact Or.inl ⟨_, rfl⟩
  · rw [if_neg h1]
    by_cases h2 : (splitOn ',' a).headI.drop 2 = ['R', 'M', 'C']
    · rw [if_pos h2]
      cases hx : (splitOn ',' a).get? 9 with
      | none =>
        right; right; right
        refine ⟨?_, h2, Or.inl rfl⟩
        rw [List.get?_eq_getElem?] at hx
        simp [parseRMC, parseDateTime, hx]
      | some d =>
        cases hy : (splitOn ',' a).get? 1 with
        | none =>
          right; right; right
          refine ⟨?_, h2, Or.inr rfl⟩
          rw [List.get?_eq_getElem?] at hx hy
          simp [parseRMC, parseDateTime, hx, hy]
        | some t =>
          right; left
          rw [List.get?_eq_getElem?] at hx hy
          simp [parseRMC, parseDateTime, hx, hy]
    · rw [if_neg h2]
      right; right; left
      rfl

theorem parseNmeaSentence_cases (s : List Char) (flag : Bool) :
    (parseNmeaSentence s flag = .error .invalidSentence ∧
      ¬(s.head? = some '$' ∧ s.contains '*' = true)) ∨
    ((s.head? = some '$' ∧ s.contains '*' = true) ∧
      (parseNmeaSentence s flag = parseBody ((splitOn '*' (s.drop 1)).headI) ∨
       (flag = false ∧ parseNmeaSentence s flag = .error .unableToExtract) ∨
       (flag = true ∧ parseNmeaSentence s flag = .error .checksumMismatch))) := by
  by_cases hfr : (s.head? = some '$' ∧ s.contains '*' = true)
  · right
    refine ⟨hfr, ?_⟩
    cases flag with
    | false =>
      rw [parseNmeaSentence, if_neg (not_not_intro hfr)]
      by_cases hreg : regexOk s = true
      · left
        simp [hreg]
      · right; left
        simp [hreg]
    | true =>
      rw [parseNmeaSentence, if_neg (not_not_intro hfr)]
      by_cases hcmp : (match (splitOn '*' (s.drop 1)).get? 1 with
          | some cs => jsParseIntHex cs
          | none => none) =
          some ((calculateChecksum ((splitOn '*' (s.drop 1)).headI) : Nat) : Int)
      · left
        simp only [Bool.not_true]
        rw [if_neg (by simp), if_pos hcmp]
      · right; right
        simp only [Bool.not_true]
        rw [if_neg (by simp), if_neg hcmp]
        exact ⟨by simp, rfl⟩
  · left
    rw [parseNmeaSentence, if_pos hfr]
    exact ⟨rfl, hfr⟩

end NmeaDecoder

namespace NmeaDecoder

open Nmea

theorem parse_false_of_regexOk {s : List Char} (h1 : s.head? = some '$')
    (h2 : s.contains '*' = true) (hreg : regexOk s = true) :
    parseNmeaSentence s false = parseBody ((splitOn '*' (s.drop 1)).headI) := by
  rw [parseNmeaSentence, if_neg (not_not_intro ⟨h1, h2⟩)]
  simp [hreg]

end NmeaDecoder

open Nmea NmeaDecoder in
/-- C4 (amended): parseNmeaSentence splits the input at the first `*`, not
the last: for a sentence `$ a * b` with a star-free data part `a`, the
value compared during checksum validation is parsed from the segment of
`b` before the next `*` (the piece between the first and second `*` of the
whole sentence), and the fields are extracted from `a`. -/
theorem claim4_split_at_first_star :
    ∀ (a b : List Char) (flag : Bool), (∀ c ∈ a, c ≠ '*') →
      parseNmeaSentence ('$' :: (a ++ '*' :: b)) flag =
        if flag then
          (if jsParseIntHex (b.takeWhile (fun c => !(c = '*'))) =
              some ((calculateChecksum a : Nat) : Int)
           then parseBody a else .error .checksumMismatch)
        else
          (if regexOk ('$' :: (a ++ '*' :: b)) then parseBody a
           else .error .unableToExtract) :=
  fun _ _ flag ha => parseNmeaSentence_split ha flag

open Nmea NmeaDecoder in
set_option maxRecDepth 200000 in
/-- Counterexample to C4 as stated: in the sentence
`$GPGGA,,,,,,,,,,,,,,*56*00` the checksum value after the last `*` is `00`,
which does not match the XOR of the text between `$` and the last `*`, so
under the claimed split validation would fail; the decoder nevertheless
accepts the sentence, because it validates `56` — the segment between the
first and second `*` — against the data before the first `*`. -/
theorem claim4_counterexample :
    (parseNmeaSentence "$GPGGA,,,,,,,,,,,,,,*56*00".toList true).isOk = true ∧
    jsParseIntHex "00".toList ≠
      some ((NmeaDecoder.calculateChecksum "GPGGA,,,,,,,,,,,,,,*56".toList : Nat) : Int) :=
  ⟨by decide, by decide⟩

open Nmea NmeaDecoder in
set_option maxRecDepth 200000 in
/-- Witness for C4 (amended) at a concrete sentence with a second `*`
inside the checksum segment. -/
theorem claim4_split_at_first_star_witness :
    parseNmeaSentence ('$' :: ("XYABC".toList ++ '*' :: "12*34".toList)) true =
      if true then
        (if jsParseIntHex ("12*34".toList.takeWhile (fun c => !(c = '*'))) =
            some ((NmeaDecoder.calculateChecksum "XYABC".toList : Nat) : Int)
         then parseBody "XYABC".toList else .error .checksumMismatch)
      else
        (if regexOk ('$' :: ("XYABC".toList ++ '*' :: "12*34".toList))
         then parseBody "XYABC".toList
         else .error .unableToExtract) :=
  claim4_split_at_first_star "XYABC".toList "12*34".toList true (by decide)

open Nmea NmeaDecoder in
/-- C5 (amended): when checksum validation is disabled the decoder skips
the checksum comparison but additionally requires the sentence to match
the pattern `$ ... * ww` (a `*` followed by exactly two word characters at
the very end, captured by `regexOk`).  For sentences of that shape,
disabled-mode decoding is exactly the checksum-free body parse, and every
sentence accepted with validation enabled decodes to the same packet with
validation disabled.  Without that shape the disabled mode throws a frame
error even where the enabled mode succeeds (see the counterexample). -/
theorem claim5_validation_flag :
    (∀ (s : List Char) (p : JsPacket), regexOk s = true →
      parseNmeaSentence s true = .ok p → parseNmeaSentence s false = .ok p) ∧
    (∀ s : List Char, s.head? = some '$' → s.contains '*' = true → regexOk s = true →
      parseNmeaSentence s false = parseBody ((splitOn '*' (s.drop 1)).headI)) := by
  constructor
  · intro s p hreg htrue
    rcases parseNmeaSentence_cases s true with ⟨he, _⟩ | ⟨hfr, hcase⟩
    · rw [he] at htrue; simp at htrue
    · rcases hcase with hpb | ⟨hf, _⟩ | ⟨_, herr⟩
      · rw [hpb] at htrue
        rw [parse_false_of_regexOk hfr.1 hfr.2 hreg, htrue]
      · simp at hf
      · rw [herr] at htrue; simp at htrue
  · intro s h1 h2 hreg
    exact parse_false_of_regexOk h1 h2 hreg

open Nmea NmeaDecoder in
set_option maxRecDepth 200000 in
/-- Counterexample to C5 as stated: the sentence
`$GPGGA,,,,,,,,,,,,,,*056` carries its checksum written with three hex
digits; validation-enabled decoding accepts it (parseInt reads 0x056 =
0x56), but validation-disabled decoding throws the
`unable to extract checksum` frame error, because the trailing segment is
not exactly two word characters. -/
theorem claim5_counterexample :
    (parseNmeaSentence "$GPGGA,,,,,,,,,,,,,,*056".toList true).isOk = true ∧
    parseNmeaSentence "$GPGGA,,,,,,,,,,,,,,*056".toList false = .error .unableToExtract :=
  ⟨by decide, by decide⟩

open Nmea NmeaDecoder in
set_option maxRecDepth 200000 in
/-- Witness for C5 (amended) at a concrete well-shaped sentence. -/
theorem claim5_validation_flag_witness :
    parseNmeaSentence "$GPGGA*00".toList false =
      parseBody ((splitOn '*' ("$GPGGA*00".toList.drop 1)).headI) :=
  claim5_validation_flag.2 "$GPGGA*00".toList rfl (by decide) (by decide)

open Nmea NmeaDecoder in
/-- C6 (amended): parseNmeaSentence throws the `Invalid NMEA sentence`
frame error for every input that does not start with `$` or contains no
`*`; and for every well-framed input that also passes the checksum-stage
check of the selected mode (the checksum comparison when validation is
enabled, the trailing `*ww` shape check when it is disabled) whose
sentence identifier is neither GGA nor RMC, it throws the
unsupported-sentence-type error carrying that identifier.  (The claim as
stated omits the checksum-stage condition; the counterexample shows a
well-framed sentence with an unknown identifier that produces a frame
error instead.) -/
theorem claim6_unsupported_dispatch :
    (∀ (s : List Char) (flag : Bool), ¬(s.head? = some '$' ∧ s.contains '*' = true) →
      parseNmeaSentence s flag = .error .invalidSentence) ∧
    (∀ (a b : List Char) (flag : Bool), (∀ c ∈ a, c ≠ '*') →
      (if flag then
          jsParseIntHex (b.takeWhile (fun c => !(c = '*'))) =
            some ((NmeaDecoder.calculateChecksum a : Nat) : Int)
        else regexOk ('$' :: (a ++ '*' :: b)) = true) →
      (splitOn ',' a).headI.drop 2 ≠ ['G', 'G', 'A'] →
      (splitOn ',' a).headI.drop 2 ≠ ['R', 'M', 'C'] →
      parseNmeaSentence ('$' :: (a ++ '*' :: b)) flag =
        .error (.unsupportedSentenceType ((splitOn ',' a).headI.drop 2))) := by
  constructor
  · intro s flag h
    rw [parseNmeaSentence, if_pos h]
  · intro a b flag hstar hstage h1 h2
    rw [parseNmeaSentence_split hstar]
    have hpb : parseBody a = .error (.unsupportedSentenceType ((splitOn ',' a).headI.drop 2)) := by
      rw [parseBody, if_neg h1, if_neg h2]
    cases flag with
    | true =>
      rw [if_pos rfl, if_pos (by simpa using hstage), hpb]
    | false =>
      rw [if_neg (by simp), if_pos (by simpa using hstage), hpb]

open Nmea NmeaDecoder in
set_option maxRecDepth 200000 in
/-- Counterexample to C6 as stated: `$XXABC*5` is well-framed (starts with
`$`, contains `*`) and its identifier `ABC` is neither GGA nor RMC, yet
with validation disabled the decoder throws the
`unable to extract checksum` frame error instead of the
unsupported-sentence-type error, because the single-digit checksum fails
the trailing `*ww` shape check that runs before dispatch. -/
theorem claim6_counterexample :
    ("$XXABC*5".toList.head? = some '$' ∧ "$XXABC*5".toList.contains '*' = true) ∧
    (splitOn ',' ((splitOn '*' ("$XXABC*5".toList.drop 1)).headI)).headI.drop 2 =
      "ABC".toList ∧
    parseNmeaSentence "$XXABC*5".toList false = .error .unableToExtract :=
  ⟨⟨rfl, by decide⟩, by decide, by decide⟩

open Nmea NmeaDecoder in
set_option maxRecDepth 200000 in
/-- Witness for C6 (amended): a malformed input hits the frame error, and
the well-framed `$XXABC*00` with an unknown identifier hits the
unsupported-sentence-type error naming `ABC`. -/
theorem claim6_unsupported_dispatch_witness :
    parseNmeaSentence "no-dollar".toList false = .error .invalidSentence ∧
    parseNmeaSentence ('$' :: ("XXABC".toList ++ '*' :: "00".toList)) false =
      .error (.unsupportedSentenceType ((splitOn ',' "XXABC".toList).headI.drop 2)) :=
  ⟨claim6_unsupported_dispatch.1 "no-dollar".toList false (by decide),
   claim6_unsupported_dispatch.2 "XXABC".toList "00".toList false (by decide) (by decide)
     (by decide) (by decide)⟩

open Nmea NmeaDecoder in
/-- C9 (amended): the decoder has five failure modes, not three: the
`Invalid NMEA sentence` frame error exactly on inputs missing the leading
`$` or the `*`; the `unable to extract checksum` frame error, raised only
when validation is disabled; the checksum mismatch, raised only when
validation is enabled (and, in this copy of the source, carrying no
values); the unsupported-sentence-type error carrying the identifier; and
a `TypeError` escaping `parseDateTime` exactly when an RMC sentence lacks
its date or time field.  On every failure no partial record is returned
(the result type carries either a packet or an error). -/
theorem claim9_error_kinds :
    (∀ s : List Char, parseNmeaSentence s false ≠ .error .checksumMismatch) ∧
    (∀ (s : List Char) (flag : Bool),
      parseNmeaSentence s flag = .error .unableToExtract → flag = false) ∧
    (∀ (s : List Char) (flag : Bool),
      parseNmeaSentence s flag = .error .invalidSentence ↔
        ¬(s.head? = some '$' ∧ s.contains '*' = true)) ∧
    (∀ (s : List Char) (flag : Bool), parseNmeaSentence s flag = .error .typeError →
      (splitOn ',' ((splitOn '*' (s.drop 1)).headI)).headI.drop 2 = ['R', 'M', 'C'] ∧
      ((splitOn ',' ((splitOn '*' (s.drop 1)).headI)).get? 9 = none ∨
        (splitOn ',' ((splitOn '*' (s.drop 1)).headI)).get? 1 = none)) := by
  have hbody : ∀ a : List Char, parseBody a ≠ .error .checksumMismatch ∧
      parseBody a ≠ .error .unableToExtract ∧ parseBody a ≠ .error .invalidSentence := by
    intro a
    rcases parseBody_cases a with ⟨g, h⟩ | ⟨r, h⟩ | h | ⟨h, _, _⟩ <;> rw [h] <;>
      exact ⟨by simp, by simp, by simp⟩
  refine ⟨?_, ?_, ?_, ?_⟩
  · intro s hc
    rcases parseNmeaSentence_cases s false with ⟨he, _⟩ | ⟨_, hpb | ⟨_, herr⟩ | ⟨hf, _⟩⟩
    · rw [he] at hc; simp at hc
    · rw [hpb] at hc; exact (hbody _).1 hc
    · rw [herr] at hc; simp at hc
    · simp at hf
  · intro s flag h
    rcases parseNmeaSentence_cases s flag with ⟨he, _⟩ | ⟨_, hpb | ⟨hf, _⟩ | ⟨_, herr⟩⟩
    · rw [he] at h; simp at h
    · rw [hpb] at h; exact absurd h (hbody _).2.1
    · exact hf
    · rw [herr] at h; simp at h
  · intro s flag
    constructor
    · intro h
      rcases parseNmeaSentence_cases s flag with ⟨_, hfr⟩ | ⟨hfr, hpb | ⟨_, herr⟩ | ⟨_, herr⟩⟩
      · exact hfr
      · rw [hpb] at h; exact absurd h (hbody _).2.2
      · rw [herr] at h; simp at h
      · rw [herr] at h; simp at h
    · intro h
      rw [parseNmeaSentence, if_pos h]
  · intro s flag h
    rcases parseNmeaSentence_cases s flag with ⟨he, _⟩ | ⟨_, hpb | ⟨_, herr⟩ | ⟨_, herr⟩⟩
    · rw [he] at h; simp at h
    · rw [hpb] at h
      rcases parseBody_cases ((splitOn '*' (s.drop 1)).headI) with
        ⟨g, hx⟩ | ⟨r, hx⟩ | hx | ⟨hx, hsid, hget⟩
      · rw [hx] at h; simp at h
      · rw [hx] at h; simp at h
      · rw [hx] at h; simp at h
      · exact ⟨hsid, hget⟩
    · rw [herr] at h; simp at h
    · rw [herr] at h; simp at h

open Nmea NmeaDecoder in
set_option maxRecDepth 200000 in
/-- Counterexample to C9 as stated: the well-framed RMC sentence
`$GPRMC*00` (no date or time fields) makes `parseDateTime` dereference
`undefined`, so a `TypeError` escapes the call — a fourth kind of failure
outside the three the claim allows. -/
theorem claim9_counterexample :
    parseNmeaSentence "$GPRMC*00".toList false = .error .typeError := by decide

open Nmea NmeaDecoder in
set_option maxRecDepth 200000 in
/-- Witness for C9 (amended): the `TypeError` characterisation applied at
the concrete failing sentence `$GPRMC*00`. -/
theorem claim9_error_kinds_witness :
    (splitOn ',' ((splitOn '*' ("$GPRMC*00".toList.drop 1)).headI)).headI.drop 2 =
      ['R', 'M', 'C'] ∧
    ((splitOn ',' ((splitOn '*' ("$GPRMC*00".toList.drop 1)).headI)).get? 9 = none ∨
      (splitOn ',' ((splitOn '*' ("$GPRMC*00".toList.drop 1)).headI)).get? 1 = none) :=
  claim9_error_kinds.2.2.2 "$GPRMC*00".toList false (by decide)

namespace Nmea

theorem splitOn_cons_sep (sep : Char) (r : List Char) :
    splitOn sep (sep :: r) = [] :: splitOn sep r := by
  have h := @splitOn_append sep [] r (by simp)
  simpa using h

theorem forall_mem_cons_of {p : Char → Prop} {c : Char} {l : List Char} (hc : p c)
    (hl : ∀ x ∈ l, p x) : ∀ x ∈ c :: l, p x := by
  intro x hx
  rcases List.mem_cons.mp hx with rfl | hx
  · exact hc
  · exact hl x hx

theorem forall_mem_append_of {p : Char → Prop} {l r : List Char} (hl : ∀ x ∈ l, p x)
    (hr : ∀ x ∈ r, p x) : ∀ x ∈ l ++ r, p x := fun x hx =>
  (List.mem_append.mp hx).elim (hl x) (hr x)

theorem hexDigitCharUpper_ne_star {d : Nat} (h : d < 16) : hexDigitCharUpper d ≠ '*' := by
  intro he
  have := hexDigitCharUpper_toNat h
  rw [he] at this
  have h42 : ('*').toNat = 42 := rfl
  rw [h42] at this
  split_ifs at this <;> omega

theorem takeWhile_ne_star_natHexUpper (n : Nat) :
    (natHexUpper n).takeWhile (fun c => !(c = '*')) = natHexUpper n := by
  apply List.takeWhile_eq_self_iff.mpr
  intro c hc
  obtain ⟨d, hd, rfl⟩ := mem_natHexUpper hc
  simp [hexDigitCharUpper_ne_star hd]

theorem jsParseIntHex_natHexUpper (n : Nat) :
    jsParseIntHex (natHexUpper n) = some ((n : Nat) : Int) := by
  rw [jsParseIntHex_hexdigits (natHexUpper_ne_nil n) (fun c hc => by
    obtain ⟨d, hd, rfl⟩ := mem_natHexUpper hc
    exact isHexDigitChar_hexDigitCharUpper hd), parseHexDigits_natHexUpper]

end Nmea

namespace NmeaDecoder

open Nmea

/-- C7: a well-framed RMC sentence whose status field is `"V"` and whose
latitude, latitude-hemisphere, longitude, longitude-hemisphere, speed and
track fields are all empty decodes without throwing to an `RMCPacket`
with `status = "V"` and latitude, longitude, speedKnots and trackTrue all
`NaN` (modelled as `none`).  The sentence is `$` + talker (two characters)
+ `RMC` + the thirteen comma-separated fields + `*` + the correct
checksum; time, date, variation, variation pole and FAA mode are
arbitrary comma- and star-free field strings. -/
theorem claim7_rmc_void_status (a b2 : Char) (time date var varP faa : List Char)
    (ha : a ≠ ',' ∧ a ≠ '*') (hb : b2 ≠ ',' ∧ b2 ≠ '*')
    (htime : ∀ c ∈ time, c ≠ ',' ∧ c ≠ '*')
    (hdate : ∀ c ∈ date, c ≠ ',' ∧ c ≠ '*')
    (hvar : ∀ c ∈ var, c ≠ ',' ∧ c ≠ '*')
    (hvarP : ∀ c ∈ varP, c ≠ ',' ∧ c ≠ '*')
    (hfaa : ∀ c ∈ faa, c ≠ ',' ∧ c ≠ '*') :
    ∃ r : RMCPacket,
      parseNmeaSentence
        ('$' :: (([a, b2, 'R', 'M', 'C'] ++
            ',' :: (time ++ ',' :: (['V'] ++ ',' :: (',' :: ',' :: ',' :: ',' :: ',' :: ',' ::
              (date ++ ',' :: (var ++ ',' :: (varP ++ ',' :: faa))))))) ++
          '*' :: natHexUpper (xorFold ([a, b2, 'R', 'M', 'C'] ++
            ',' :: (time ++ ',' :: (['V'] ++ ',' :: (',' :: ',' :: ',' :: ',' :: ',' :: ',' ::
              (date ++ ',' :: (var ++ ',' :: (varP ++ ',' :: faa)))))))))) true =
        .ok (.rmc r) ∧
      r.status = some ['V'] ∧ r.latitude = none ∧ r.longitude = none ∧
      r.speedKnots = none ∧ r.trackTrue = none := by
  have hidc : ∀ c ∈ [a, b2, 'R', 'M', 'C'], c ≠ ',' := by
    intro c hc
    simp only [List.mem_cons, List.not_mem_nil, or_false] at hc
    rcases hc with rfl | rfl | rfl | rfl | rfl
    · exact ha.1
    · exact hb.1
    all_goals decide
  have hids : ∀ c ∈ [a, b2, 'R', 'M', 'C'], c ≠ '*' := by
    intro c hc
    simp only [List.mem_cons, List.not_mem_nil, or_false] at hc
    rcases hc with rfl | rfl | rfl | rfl | rfl
    · exact ha.2
    · exact hb.2
    all_goals decide
  have hVc : ∀ c ∈ ['V'], c ≠ ',' := by
    intro c hc
    simp only [List.mem_cons, List.not_mem_nil, or_false] at hc
    subst hc
    decide
  have hVs : ∀ c ∈ ['V'], c ≠ '*' := by
    intro c hc
    simp only [List.mem_cons, List.not_mem_nil, or_false] at hc
    subst hc
    decide
  have hbstar : ∀ c ∈ ([a, b2, 'R', 'M', 'C'] ++
      ',' :: (time ++ ',' :: (['V'] ++ ',' :: (',' :: ',' :: ',' :: ',' :: ',' :: ',' ::
        (date ++ ',' :: (var ++ ',' :: (varP ++ ',' :: faa))))))), c ≠ '*' :=
    forall_mem_append_of hids
      (forall_mem_cons_of (by decide)
        (forall_mem_append_of (fun c hc => (htime c hc).2)
          (forall_mem_cons_of (by decide)
            (forall_mem_append_of hVs
              (forall_mem_cons_of (by decide)
                (forall_mem_cons_of (by decide)
                  (forall_mem_cons_of (by decide)
                    (forall_mem_cons_of (by decide)
                      (forall_mem_cons_of (by decide)
                        (forall_mem_cons_of (by decide)
                          (forall_mem_cons_of (by decide)
                            (forall_mem_append_of (fun c hc => (hdate c hc).2)
                              (forall_mem_cons_of (by decide)
                                (forall_mem_append_of (fun c hc => (hvar c hc).2)
                                  (forall_mem_cons_of (by decide)
                                    (forall_mem_append_of (fun c hc => (hvarP c hc).2)
                                      (forall_mem_cons_of (by decide)
                                        (fun c hc => (hfaa c hc).2))))))))))))))))))
  have hsplit : splitOn ','
      ([a, b2, 'R', 'M', 'C'] ++
        ',' :: (time ++ ',' :: (['V'] ++ ',' :: (',' :: ',' :: ',' :: ',' :: ',' :: ',' ::
          (date ++ ',' :: (var ++ ',' :: (varP ++ ',' :: faa))))))) =
      [[a, b2, 'R', 'M', 'C'], time, ['V'], [], [], [], [], [], [], date, var, varP, faa] := by
    rw [splitOn_append hidc, splitOn_append (fun c hc => (htime c hc).1),
      splitOn_append hVc, splitOn_cons_sep, splitOn_cons_sep, splitOn_cons_sep,
      splitOn_cons_sep, splitOn_cons_sep, splitOn_cons_sep,
      splitOn_append (fun c hc => (hdate c hc).1),
      splitOn_append (fun c hc => (hvar c hc).1),
      splitOn_append (fun c hc => (hvarP c hc).1),
      splitOn_sepFree (fun c hc => (hfaa c hc).1)]
  rw [parseNmeaSentence_split hbstar true, if_pos rfl, takeWhile_ne_star_natHexUpper]
  simp only [NmeaDecoder.calculateChecksum]
  rw [if_pos (jsParseIntHex_natHexUpper _)]
  simp only [parseBody]
  rw [hsplit]
  simp only [List.headI_cons]
  rw [show List.drop 2 [a, b2, 'R', 'M', 'C'] = ['R', 'M', 'C'] from rfl,
    if_neg (by decide), if_pos rfl]
  have hget9 : ([[a, b2, 'R', 'M', 'C'], time, ['V'], [], [], [], [], [], [], date, var,
      varP, faa] : List (List Char)).get? 9 = some date := rfl
  have hget1 : ([[a, b2, 'R', 'M', 'C'], time, ['V'], [], [], [], [], [], [], date, var,
      varP, faa] : List (List Char)).get? 1 = some time := rfl
  simp only [parseRMC, hget9, hget1, parseDateTime]
  refine ⟨_, rfl, rfl, rfl, rfl, rfl, rfl⟩

end NmeaDecoder

namespace NmeaDecoder

open Nmea

/-- Witness for C7 at the concrete sentence `$GPRMC,,V,,,,,,,,,,*` with
its correct checksum: the claim theorem applied at talker `GP` and empty
optional fields. -/
theorem claim7_rmc_void_status_witness :
    ∃ r : RMCPacket,
      parseNmeaSentence
        ('$' :: ((['G', 'P', 'R', 'M', 'C'] ++
            ',' :: (([] : List Char) ++ ',' :: (['V'] ++ ',' :: (',' :: ',' :: ',' :: ',' ::
              ',' :: ',' :: (([] : List Char) ++ ',' :: (([] : List Char) ++ ',' ::
                (([] : List Char) ++ ',' :: ([] : List Char)))))))) ++
          '*' :: natHexUpper (xorFold (['G', 'P', 'R', 'M', 'C'] ++
            ',' :: (([] : List Char) ++ ',' :: (['V'] ++ ',' :: (',' :: ',' :: ',' :: ',' ::
              ',' :: ',' :: (([] : List Char) ++ ',' :: (([] : List Char) ++ ',' ::
                (([] : List Char) ++ ',' :: ([] : List Char))))))))))) true =
        .ok (.rmc r) ∧
      r.status = some ['V'] ∧ r.latitude = none ∧ r.longitude = none ∧
      r.speedKnots = none ∧ r.trackTrue = none :=
  claim7_rmc_void_status 'G' 'P' [] [] [] [] [] (by decide) (by decide) (by simp) (by simp)
    (by simp) (by simp) (by simp)

end NmeaDecoder

namespace Nmea

theorem jsParseIntDec_nil : jsParseIntDec [] = none := rfl

theorem jsParseFloat_nil : jsParseFloat [] = none := rfl

end Nmea

namespace NmeaDecoder

open Nmea

/-- C10: an input that passes the frame check and the active stage-2 check
(regular-expression match when validation is off, checksum comparison when
it is on) and whose identifier is `GGA` always decodes to a `GGAPacket`
without throwing, however few comma-separated fields it has: a missing or
empty time field gives `time = undefined`; missing or empty coordinate and
numeric fields give `NaN` (modelled as `none`); `differentialAge` and
`differentialRefStn` are present exactly when the raw fields 13 and 14 are
non-empty strings. -/
theorem claim10_gga_total (s : List Char) (flag : Bool)
    (hframe : s.head? = some '$' ∧ s.contains '*' = true)
    (hstage : flag = false → regexOk s = true)
    (hck : flag = true →
      (match (splitOn '*' (s.drop 1)).get? 1 with
        | some cs => jsParseIntHex cs
        | none => none) =
        some ((calculateChecksum ((splitOn '*' (s.drop 1)).headI) : Nat) : Int))
    (hid : ((splitOn ',' ((splitOn '*' (s.drop 1)).headI)).headI).drop 2 = ['G', 'G', 'A']) :
    ∃ g : GGAPacket, parseNmeaSentence s flag = .ok (.gga g) ∧
      ((splitOn ',' ((splitOn '*' (s.drop 1)).headI)).get? 1 = none ∨
        (splitOn ',' ((splitOn '*' (s.drop 1)).headI)).get? 1 = some [] → g.time = none) ∧
      ((splitOn ',' ((splitOn '*' (s.drop 1)).headI)).get? 2 = none ∨
        (splitOn ',' ((splitOn '*' (s.drop 1)).headI)).get? 2 = some [] →
          g.latitude = none) ∧
      ((splitOn ',' ((splitOn '*' (s.drop 1)).headI)).get? 4 = none ∨
        (splitOn ',' ((splitOn '*' (s.drop 1)).headI)).get? 4 = some [] →
          g.longitude = none) ∧
      ((splitOn ',' ((splitOn '*' (s.drop 1)).headI)).get? 6 = none ∨
        (splitOn ',' ((splitOn '*' (s.drop 1)).headI)).get? 6 = some [] →
          g.fixType = none) ∧
      ((splitOn ',' ((splitOn '*' (s.drop 1)).headI)).get? 7 = none ∨
        (splitOn ',' ((splitOn '*' (s.drop 1)).headI)).get? 7 = some [] →
          g.satellitesInView = none) ∧
      ((splitOn ',' ((splitOn '*' (s.drop 1)).headI)).get? 8 = none ∨
        (splitOn ',' ((splitOn '*' (s.drop 1)).headI)).get? 8 = some [] →
          g.horizontalDilution = none) ∧
      ((splitOn ',' ((splitOn '*' (s.drop 1)).headI)).get? 9 = none ∨
        (splitOn ',' ((splitOn '*' (s.drop 1)).headI)).get? 9 = some [] →
          g.altitudeMeters = none) ∧
      ((splitOn ',' ((splitOn '*' (s.drop 1)).headI)).get? 11 = none ∨
        (splitOn ',' ((splitOn '*' (s.drop 1)).headI)).get? 11 = some [] →
          g.geoidalSeperation = none) ∧
      (g.differentialAge ≠ none ↔
        ∃ c t, (splitOn ',' ((splitOn '*' (s.drop 1)).headI)).get? 13 = some (c :: t)) ∧
      (g.differentialRefStn ≠ none ↔
        ∃ c t, (splitOn ',' ((splitOn '*' (s.drop 1)).headI)).get? 14 = some (c :: t)) := by
  have hparse : parseNmeaSentence s flag = parseBody ((splitOn '*' (s.drop 1)).headI) := by
    cases flag with
    | false => exact parse_false_of_regexOk hframe.1 hframe.2 (hstage rfl)
    | true =>
      rw [parseNmeaSentence, if_neg (not_not_intro hframe)]
      simp only [Bool.not_true]
      rw [if_neg (by simp), if_pos (hck rfl)]
  have hbody : parseBody ((splitOn '*' (s.drop 1)).headI) =
      .ok (.gga (parseGGA (splitOn ',' ((splitOn '*' (s.drop 1)).headI))
        (((splitOn ',' ((splitOn '*' (s.drop 1)).headI)).headI).take 2)
        (((splitOn ',' ((splitOn '*' (s.drop 1)).headI)).headI).drop 2))) := by
    rw [parseBody, if_pos hid]
  refine ⟨_, hparse.trans hbody, ?_, ?_, ?_, ?_, ?_, ?_, ?_, ?_, ?_, ?_⟩
  · intro h
    rcases h with h | h <;> simp only [List.get?_eq_getElem?, List.drop_one] at h <;>
      simp [parseGGA, parseTime, h]
  · intro h
    rcases h with h | h <;> simp only [List.get?_eq_getElem?, List.drop_one] at h <;>
      simp [parseGGA, parseLatitude, h]
  · intro h
    rcases h with h | h <;> simp only [List.get?_eq_getElem?, List.drop_one] at h <;>
      simp [parseGGA, parseLongitude, h]
  · intro h
    rcases h with h | h <;> simp only [List.get?_eq_getElem?, List.drop_one] at h <;>
      simp [parseGGA, jsParseIntDecOpt, jsParseIntDec_nil, h]
  · intro h
    rcases h with h | h <;> simp only [List.get?_eq_getElem?, List.drop_one] at h <;>
      simp [parseGGA, jsParseIntDecOpt, jsParseIntDec_nil, h]
  · intro h
    rcases h with h | h <;> simp only [List.get?_eq_getElem?, List.drop_one] at h <;>
      simp [parseGGA, jsParseFloatOpt, jsParseFloat_nil, h]
  · intro h
    rcases h with h | h <;> simp only [List.get?_eq_getElem?, List.drop_one] at h <;>
      simp [parseGGA, jsParseFloatOpt, jsParseFloat_nil, h]
  · intro h
    rcases h with h | h <;> simp only [List.get?_eq_getElem?, List.drop_one] at h <;>
      simp [parseGGA, jsParseFloatOpt, jsParseFloat_nil, h]
  · cases hx : (splitOn ',' ((splitOn '*' (s.drop 1)).headI)).get? 13 with
    | none =>
      simp only [List.get?_eq_getElem?, List.drop_one] at hx
      simp [parseGGA, hx]
    | some l =>
      simp only [List.get?_eq_getElem?, List.drop_one] at hx
      cases l with
      | nil => simp [parseGGA, hx]
      | cons c t => simp [parseGGA, hx]
  · cases hx : (splitOn ',' ((splitOn '*' (s.drop 1)).headI)).get? 14 with
    | none =>
      simp only [List.get?_eq_getElem?, List.drop_one] at hx
      simp [parseGGA, hx]
    | some l =>
      simp only [List.get?_eq_getElem?, List.drop_one] at hx
      cases l with
      | nil => simp [parseGGA, hx]
      | cons c t => simp [parseGGA, hx]

end NmeaDecoder

namespace NmeaDecoder

open Nmea

set_option maxRecDepth 200000 in
/-- Witness for C10: the shortest well-framed GGA sentence `$GPGGA*00`
parsed with validation off; every optional field is absent. -/
theorem claim10_gga_total_witness :
    ∃ g : GGAPacket, parseNmeaSentence ("$GPGGA*00".toList) false = .ok (.gga g) ∧
      ((splitOn ',' ((splitOn '*' (("$GPGGA*00".toList).drop 1)).headI)).get? 1 = none ∨
        (splitOn ',' ((splitOn '*' (("$GPGGA*00".toList).drop 1)).headI)).get? 1 = some [] → g.time = none) ∧
      ((splitOn ',' ((splitOn '*' (("$GPGGA*00".toList).drop 1)).headI)).get? 2 = none ∨
        (splitOn ',' ((splitOn '*' (("$GPGGA*00".toList).drop 1)).headI)).get? 2 = some [] → g.latitude = none) ∧
      ((splitOn ',' ((splitOn '*' (("$GPGGA*00".toList).drop 1)).headI)).get? 4 = none ∨
        (splitOn ',' ((splitOn '*' (("$GPGGA*00".toList).drop 1)).headI)).get? 4 = some [] → g.longitude = none) ∧
      ((splitOn ',' ((splitOn '*' (("$GPGGA*00".toList).drop 1)).headI)).get? 6 = none ∨
        (splitOn ',' ((splitOn '*' (("$GPGGA*00".toList).drop 1)).headI)).get? 6 = some [] → g.fixType = none) ∧
      ((splitOn ',' ((splitOn '*' (("$GPGGA*00".toList).drop 1)).headI)).get? 7 = none ∨
        (splitOn ',' ((splitOn '*' (("$GPGGA*00".toList).drop 1)).headI)).get? 7 = some [] → g.satellitesInView = none) ∧
      ((splitOn ',' ((splitOn '*' (("$GPGGA*00".toList).drop 1)).headI)).get? 8 = none ∨
        (splitOn ',' ((splitOn '*' (("$GPGGA*00".toList).drop 1)).headI)).get? 8 = some [] → g.horizontalDilution = none) ∧
      ((splitOn ',' ((splitOn '*' (("$GPGGA*00".toList).drop 1)).headI)).get? 9 = none ∨
        (splitOn ',' ((splitOn '*' (("$GPGGA*00".toList).drop 1)).headI)).get? 9 = some [] → g.altitudeMeters = none) ∧
      ((splitOn ',' ((splitOn '*' (("$GPGGA*00".toList).drop 1)).headI)).get? 11 = none ∨
        (splitOn ',' ((splitOn '*' (("$GPGGA*00".toList).drop 1)).headI)).get? 11 = some [] → g.geoidalSeperation = none) ∧
      (g.differentialAge ≠ none ↔
        ∃ c t, (splitOn ',' ((splitOn '*' (("$GPGGA*00".toList).drop 1)).headI)).get? 13 = some (c :: t)) ∧
      (g.differentialRefStn ≠ none ↔
        ∃ c t, (splitOn ',' ((splitOn '*' (("$GPGGA*00".toList).drop 1)).headI)).get? 14 = some (c :: t)) :=
  claim10_gga_total ("$GPGGA*00".toList) false (by decide) (fun h => by decide)
    (fun h => absurd h (by decide)) (by decide)

end NmeaDecoder

namespace Nmea

theorem mem_jsToFixedPos {p : Nat} {y : Frac} {c : Char} (hc : c ∈ jsToFixedPos p y) :
    isDigitChar c = true ∨ c = '.' := by
  simp only [jsToFixedPos] at hc
  split at hc
  · obtain ⟨d, hd, rfl⟩ := mem_natDecimal hc
    exact Or.inl (isDigitChar_digitChar hd)
  · rcases List.mem_append.mp hc with h | h
    · obtain ⟨d, hd, rfl⟩ := mem_natDecimal h
      exact Or.inl (isDigitChar_digitChar hd)
    · rcases List.mem_cons.mp h with rfl | h
      · exact Or.inr rfl
      · rcases mem_padStart h with rfl | h
        · exact Or.inl (by decide)
        · obtain ⟨d, hd, rfl⟩ := mem_natDecimal h
          exact Or.inl (isDigitChar_digitChar hd)

theorem mem_jsToFixed {p : Nat} {x : Frac} {c : Char} (hc : c ∈ jsToFixed p x) :
    isDigitChar c = true ∨ c = '.' ∨ c = '-' := by
  simp only [jsToFixed] at hc
  split at hc
  · rcases List.mem_cons.mp hc with rfl | h
    · exact Or.inr (Or.inr rfl)
    · rcases mem_jsToFixedPos h with h | h
      · exact Or.inl h
      · exact Or.inr (Or.inl h)
  · rcases mem_jsToFixedPos hc with h | h
    · exact Or.inl h
    · exact Or.inr (Or.inl h)

theorem goodChar_ne {c : Char} (h : isDigitChar c = true ∨ c = '.' ∨ c = '-') :
    c ≠ ',' ∧ c ≠ '*' := by
  rcases h with h | rfl | rfl
  · exact ⟨ne_of_isDigitChar h ',' (by decide), ne_of_isDigitChar h '*' (by decide)⟩
  · exact ⟨by decide, by decide⟩
  · exact ⟨by decide, by decide⟩

theorem mem_jsToFixed_ne {p : Nat} {x : Frac} : ∀ c ∈ jsToFixed p x, c ≠ ',' ∧ c ≠ '*' :=
  fun _ hc => goodChar_ne (mem_jsToFixed hc)

end Nmea

namespace NmeaEncoder

open Nmea

theorem mem_pad_ne {x : Frac} {w pr : Nat} : ∀ c ∈ pad x w pr, c ≠ ',' ∧ c ≠ '*' := by
  intro c hc
  rcases mem_padStart hc with rfl | h
  · exact ⟨by decide, by decide⟩
  · exact goodChar_ne (mem_jsToFixed h)

theorem mem_formatNMEATime_ne {ms : Int} {b : Bool} :
    ∀ c ∈ formatNMEATime ms b, c ≠ ',' ∧ c ≠ '*' := by
  intro c hc
  simp only [formatNMEATime] at hc
  split at hc
  · rcases List.mem_append.mp hc with h | h
    · rcases List.mem_append.mp h with h | h
      · rcases List.mem_append.mp h with h | h <;> exact mem_pad_ne c h
      · exact mem_pad_ne c h
    · rcases List.mem_cons.mp h with rfl | h
      · exact ⟨by decide, by decide⟩
      · exact mem_pad_ne c h
  · rcases List.mem_append.mp hc with h | h
    · rcases List.mem_append.mp h with h | h <;> exact mem_pad_ne c h
    · exact mem_pad_ne c h

theorem mem_formatNMEADate_ne {ms : Int} : ∀ c ∈ formatNMEADate ms, c ≠ ',' ∧ c ≠ '*' := by
  intro c hc
  simp only [formatNMEADate] at hc
  rcases List.mem_append.mp hc with h | h
  · rcases List.mem_append.mp h with h | h <;> exact mem_pad_ne c h
  · exact mem_pad_ne c h

end NmeaEncoder

namespace Nmea

theorem padded_checksum_parse (v : Nat) :
    jsParseIntHex ((padStart 2 '0' (natHexUpper v)).takeWhile (fun c => !(c = '*'))) =
      some ((v : Nat) : Int) := by
  have hhex : ∀ c ∈ padStart 2 '0' (natHexUpper v), isHexDigitChar c = true := by
    intro c hc
    rcases mem_padStart hc with rfl | h
    · decide
    · obtain ⟨d, hd, rfl⟩ := mem_natHexUpper h
      exact isHexDigitChar_hexDigitCharUpper hd
  have hne : padStart 2 '0' (natHexUpper v) ≠ [] := by
    intro h
    exact natHexUpper_ne_nil v (List.append_eq_nil.mp h).2
  have htw : (padStart 2 '0' (natHexUpper v)).takeWhile (fun c => !(c = '*')) =
      padStart 2 '0' (natHexUpper v) := by
    apply List.takeWhile_eq_self_iff.mpr
    intro c hc
    have h := ne_of_isHexDigitChar (hhex c hc) '*' (by decide)
    simp [h]
  have hval : parseHexDigits (padStart 2 '0' (natHexUpper v)) = v := by
    show parseHexDigits (List.replicate _ '0' ++ natHexUpper v) = v
    rw [parseHexDigits_replicate_zero, parseHexDigits_natHexUpper]
  rw [htw, jsParseIntHex_hexdigits hne hhex, hval]

end Nmea

namespace NmeaDecoder

open Nmea

theorem mutation_checksum_mismatch {body : List Char} (hstar : ∀ c ∈ body, c ≠ '*')
    {i : Nat} (hi : i < body.length) {y : Char} (hy : y ≠ body.get ⟨i, hi⟩)
    (hys : y ≠ '*') :
    parseNmeaSentence
      ('$' :: (body.set i y ++ '*' :: padStart 2 '0' (natHexUpper (xorFold body)))) true =
      .error .checksumMismatch := by
  have hstar' : ∀ x ∈ body.set i y, x ≠ '*' := by
    intro x hx
    rcases List.mem_or_eq_of_mem_set hx with h | rfl
    · exact hstar x h
    · exact hys
  rw [parseNmeaSentence_split hstar' true, if_pos rfl]
  have hne : ¬(jsParseIntHex
      ((padStart 2 '0' (natHexUpper (xorFold body))).takeWhile (fun c => !(c = '*'))) =
      some ((calculateChecksum (body.set i y) : Nat) : Int)) := by
    rw [padded_checksum_parse]
    intro h
    have h1 : ((xorFold body : Nat) : Int) = ((calculateChecksum (body.set i y) : Nat) : Int) :=
      Option.some.inj h
    have h2 : xorFold body = calculateChecksum (body.set i y) := by exact_mod_cast h1
    simp only [calculateChecksum] at h2
    rw [xorFold_set hi] at h2
    have h3 : xorFold body ^^^ (xorFold body ^^^ (body.get ⟨i, hi⟩).toNat ^^^ y.toNat) =
        xorFold body ^^^ xorFold body := congrArg (xorFold body ^^^ ·) h2.symm
    rw [Nat.xor_self] at h3
    rw [← Nat.xor_assoc, ← Nat.xor_assoc, Nat.xor_self, Nat.zero_xor] at h3
    have h4 : (body.get ⟨i, hi⟩).toNat = y.toNat := by
      have h5 : (body.get ⟨i, hi⟩).toNat ^^^ y.toNat = 0 := h3
      have h6 := congrArg (· ^^^ y.toNat) h5
      simp only [Nat.xor_assoc, Nat.xor_self, Nat.xor_zero, Nat.zero_xor] at h6
      exact h6
    exact hy (char_toNat_inj h4.symm)
  rw [if_neg hne]

end NmeaDecoder

namespace NmeaDecoder

open Nmea NmeaEncoder

theorem gga_frame (pos : TrackPosition) (options : Option EncodeOptions) (now : Int) :
    ∃ body : List Char,
      generateGPGGA pos options now =
        '$' :: (body ++ '*' :: padStart 2 '0' (natHexUpper (xorFold body))) ∧
      (∀ c ∈ body, c ≠ '*') ∧
      (∃ g, parseNmeaSentence (generateGPGGA pos options now) true = .ok (.gga g)) := by
  have hstar : ∀ c ∈ (['G', 'P', 'G', 'G', 'A'] ++ ',' :: ((formatNMEATime (resolveTime pos options now) ((options.bind EncodeOptions.includeMs).getD false)) ++ ',' :: (((pad (Frac.ofInt pos.latitude.abs.floor) 2) ++ (pad ((pos.latitude.abs.sub (Frac.ofInt pos.latitude.abs.floor)).mul (Frac.ofInt 60)) 7 4)) ++ ',' :: ([(if pos.latitude.nonneg then 'N' else 'S')] ++ ',' :: (((pad (Frac.ofInt pos.longitude.abs.floor) 3) ++ (pad ((pos.longitude.abs.sub (Frac.ofInt pos.longitude.abs.floor)).mul (Frac.ofInt 60)) 7 4)) ++ ',' :: ([(if pos.longitude.nonneg then 'E' else 'W')] ++ ',' :: (['1'] ++ ',' :: (['0', '8'] ++ ',' :: (['0', '.', '9'] ++ ',' :: ((jsToFixed 1 pos.altitude) ++ ',' :: (['M'] ++ ',' :: (['0', '.', '0'] ++ ',' :: (['M'] ++ ',' :: [',']))))))))))))), c ≠ '*' :=
    forall_mem_append_of (by intro c hc; fin_cases hc <;> decide)
      (forall_mem_cons_of (by decide)
      (forall_mem_append_of (fun c hc => (mem_formatNMEATime_ne c hc).2)
      (forall_mem_cons_of (by decide)
      (forall_mem_append_of (forall_mem_append_of (fun c hc => (mem_pad_ne c hc).2) (fun c hc => (mem_pad_ne c hc).2))
      (forall_mem_cons_of (by decide)
      (forall_mem_append_of (by intro c hc; simp only [List.mem_cons, List.not_mem_nil, or_false] at hc; subst hc; split <;> decide)
      (forall_mem_cons_of (by decide)
      (forall_mem_append_of (forall_mem_append_of (fun c hc => (mem_pad_ne c hc).2) (fun c hc => (mem_pad_ne c hc).2))
      (forall_mem_cons_of (by decide)
      (forall_mem_append_of (by intro c hc; simp only [List.mem_cons, List.not_mem_nil, or_false] at hc; subst hc; split <;> decide)
      (forall_mem_cons_of (by decide)
      (forall_mem_append_of (by intro c hc; fin_cases hc <;> decide)
      (forall_mem_cons_of (by decide)
      (forall_mem_append_of (by intro c hc; fin_cases hc <;> decide)
      (forall_mem_cons_of (by decide)
      (forall_mem_append_of (by intro c hc; fin_cases hc <;> decide)
      (forall_mem_cons_of (by decide)
      (forall_mem_append_of (fun c hc => (mem_jsToFixed_ne c hc).2)
      (forall_mem_cons_of (by decide)
      (forall_mem_append_of (by intro c hc; fin_cases hc <;> decide)
      (forall_mem_cons_of (by decide)
      (forall_mem_append_of (by intro c hc; fin_cases hc <;> decide)
      (forall_mem_cons_of (by decide)
      (forall_mem_append_of (by intro c hc; fin_cases hc <;> decide)
      (forall_mem_cons_of (by decide)
      (by intro c hc; fin_cases hc <;> decide))))))))))))))))))))))))))
  have hflat : formatLatitude pos.latitude = pad (Frac.ofInt pos.latitude.abs.floor) 2 ++ pad ((pos.latitude.abs.sub (Frac.ofInt pos.latitude.abs.floor)).mul (Frac.ofInt 60)) 7 4 ++ ',' :: [(if pos.latitude.nonneg then 'N' else 'S')] := rfl
  have hflon : formatLongitude pos.longitude = pad (Frac.ofInt pos.longitude.abs.floor) 3 ++ pad ((pos.longitude.abs.sub (Frac.ofInt pos.longitude.abs.floor)).mul (Frac.ofInt 60)) 7 4 ++ ',' :: [(if pos.longitude.nonneg then 'E' else 'W')] := rfl
  have hgen : generateGPGGA pos options now =
      '$' :: ((['G', 'P', 'G', 'G', 'A'] ++ ',' :: ((formatNMEATime (resolveTime pos options now) ((options.bind EncodeOptions.includeMs).getD false)) ++ ',' :: (((pad (Frac.ofInt pos.latitude.abs.floor) 2) ++ (pad ((pos.latitude.abs.sub (Frac.ofInt pos.latitude.abs.floor)).mul (Frac.ofInt 60)) 7 4)) ++ ',' :: ([(if pos.latitude.nonneg then 'N' else 'S')] ++ ',' :: (((pad (Frac.ofInt pos.longitude.abs.floor) 3) ++ (pad ((pos.longitude.abs.sub (Frac.ofInt pos.longitude.abs.floor)).mul (Frac.ofInt 60)) 7 4)) ++ ',' :: ([(if pos.longitude.nonneg then 'E' else 'W')] ++ ',' :: (['1'] ++ ',' :: (['0', '8'] ++ ',' :: (['0', '.', '9'] ++ ',' :: ((jsToFixed 1 pos.altitude) ++ ',' :: (['M'] ++ ',' :: (['0', '.', '0'] ++ ',' :: (['M'] ++ ',' :: [',']))))))))))))) ++ '*' :: padStart 2 '0' (natHexUpper (xorFold (['G', 'P', 'G', 'G', 'A'] ++ ',' :: ((formatNMEATime (resolveTime pos options now) ((options.bind EncodeOptions.includeMs).getD false)) ++ ',' :: (((pad (Frac.ofInt pos.latitude.abs.floor) 2) ++ (pad ((pos.latitude.abs.sub (Frac.ofInt pos.latitude.abs.floor)).mul (Frac.ofInt 60)) 7 4)) ++ ',' :: ([(if pos.latitude.nonneg then 'N' else 'S')] ++ ',' :: (((pad (Frac.ofInt pos.longitude.abs.floor) 3) ++ (pad ((pos.longitude.abs.sub (Frac.ofInt pos.longitude.abs.floor)).mul (Frac.ofInt 60)) 7 4)) ++ ',' :: ([(if pos.longitude.nonneg then 'E' else 'W')] ++ ',' :: (['1'] ++ ',' :: (['0', '8'] ++ ',' :: (['0', '.', '9'] ++ ',' :: ((jsToFixed 1 pos.altitude) ++ ',' :: (['M'] ++ ',' :: (['0', '.', '0'] ++ ',' :: (['M'] ++ ',' :: [','])))))))))))))))) := by
    have hb : ("$GPGGA,".toList ++ formatNMEATime (resolveTime pos options now) ((options.bind EncodeOptions.includeMs).getD false) ++ ",".toList ++ formatLatitude pos.latitude ++ ",".toList ++ formatLongitude pos.longitude ++ ",1,08,0.9,".toList ++ jsToFixed 1 pos.altitude ++ ",M,0.0,M,,".toList) = '$' :: (['G', 'P', 'G', 'G', 'A'] ++ ',' :: ((formatNMEATime (resolveTime pos options now) ((options.bind EncodeOptions.includeMs).getD false)) ++ ',' :: (((pad (Frac.ofInt pos.latitude.abs.floor) 2) ++ (pad ((pos.latitude.abs.sub (Frac.ofInt pos.latitude.abs.floor)).mul (Frac.ofInt 60)) 7 4)) ++ ',' :: ([(if pos.latitude.nonneg then 'N' else 'S')] ++ ',' :: (((pad (Frac.ofInt pos.longitude.abs.floor) 3) ++ (pad ((pos.longitude.abs.sub (Frac.ofInt pos.longitude.abs.floor)).mul (Frac.ofInt 60)) 7 4)) ++ ',' :: ([(if pos.longitude.nonneg then 'E' else 'W')] ++ ',' :: (['1'] ++ ',' :: (['0', '8'] ++ ',' :: (['0', '.', '9'] ++ ',' :: ((jsToFixed 1 pos.altitude) ++ ',' :: (['M'] ++ ',' :: (['0', '.', '0'] ++ ',' :: (['M'] ++ ',' :: [',']))))))))))))) := by
      rw [hflat, hflon]
      simp only [show "$GPGGA,".toList = ['$', 'G', 'P', 'G', 'G', 'A', ','] from rfl,
        show ",".toList = [','] from rfl,
        show ",1,08,0.9,".toList = [',', '1', ',', '0', '8', ',', '0', '.', '9', ','] from rfl,
        show ",M,0.0,M,,".toList = [',', 'M', ',', '0', '.', '0', ',', 'M', ',', ','] from rfl,
        List.cons_append, List.nil_append, List.append_assoc]
    show ("$GPGGA,".toList ++ formatNMEATime (resolveTime pos options now) ((options.bind EncodeOptions.includeMs).getD false) ++ ",".toList ++ formatLatitude pos.latitude ++ ",".toList ++ formatLongitude pos.longitude ++ ",1,08,0.9,".toList ++ jsToFixed 1 pos.altitude ++ ",M,0.0,M,,".toList) ++ NmeaEncoder.calculateChecksum ("$GPGGA,".toList ++ formatNMEATime (resolveTime pos options now) ((options.bind EncodeOptions.includeMs).getD false) ++ ",".toList ++ formatLatitude pos.latitude ++ ",".toList ++ formatLongitude pos.longitude ++ ",1,08,0.9,".toList ++ jsToFixed 1 pos.altitude ++ ",M,0.0,M,,".toList) = _
    rw [NmeaEncoder.calculateChecksum, hb]
    rw [show ('$' :: (['G', 'P', 'G', 'G', 'A'] ++ ',' :: ((formatNMEATime (resolveTime pos options now) ((options.bind EncodeOptions.includeMs).getD false)) ++ ',' :: (((pad (Frac.ofInt pos.latitude.abs.floor) 2) ++ (pad ((pos.latitude.abs.sub (Frac.ofInt pos.latitude.abs.floor)).mul (Frac.ofInt 60)) 7 4)) ++ ',' :: ([(if pos.latitude.nonneg then 'N' else 'S')] ++ ',' :: (((pad (Frac.ofInt pos.longitude.abs.floor) 3) ++ (pad ((pos.longitude.abs.sub (Frac.ofInt pos.longitude.abs.floor)).mul (Frac.ofInt 60)) 7 4)) ++ ',' :: ([(if pos.longitude.nonneg then 'E' else 'W')] ++ ',' :: (['1'] ++ ',' :: (['0', '8'] ++ ',' :: (['0', '.', '9'] ++ ',' :: ((jsToFixed 1 pos.altitude) ++ ',' :: (['M'] ++ ',' :: (['0', '.', '0'] ++ ',' :: (['M'] ++ ',' :: [','])))))))))))))).drop 1 = (['G', 'P', 'G', 'G', 'A'] ++ ',' :: ((formatNMEATime (resolveTime pos options now) ((options.bind EncodeOptions.includeMs).getD false)) ++ ',' :: (((pad (Frac.ofInt pos.latitude.abs.floor) 2) ++ (pad ((pos.latitude.abs.sub (Frac.ofInt pos.latitude.abs.floor)).mul (Frac.ofInt 60)) 7 4)) ++ ',' :: ([(if pos.latitude.nonneg then 'N' else 'S')] ++ ',' :: (((pad (Frac.ofInt pos.longitude.abs.floor) 3) ++ (pad ((pos.longitude.abs.sub (Frac.ofInt pos.longitude.abs.floor)).mul (Frac.ofInt 60)) 7 4)) ++ ',' :: ([(if pos.longitude.nonneg then 'E' else 'W')] ++ ',' :: (['1'] ++ ',' :: (['0', '8'] ++ ',' :: (['0', '.', '9'] ++ ',' :: ((jsToFixed 1 pos.altitude) ++ ',' :: (['M'] ++ ',' :: (['0', '.', '0'] ++ ',' :: (['M'] ++ ',' :: [',']))))))))))))) from rfl]
    rw [checksumLoop_eq hstar 0, Nat.zero_xor]
    simp
  refine ⟨_, hgen, hstar, ?_⟩
  rw [hgen, parseNmeaSentence_split hstar true, if_pos rfl]
  simp only [NmeaDecoder.calculateChecksum]
  rw [if_pos (padded_checksum_parse _)]
  rw [parseBody]
  rw [splitOn_append (by intro c hc; fin_cases hc <;> decide : ∀ c ∈ (['G', 'P', 'G', 'G', 'A'] : List Char), c ≠ ',')]
  simp only [List.headI_cons]
  rw [show List.drop 2 ['G', 'P', 'G', 'G', 'A'] = ['G', 'G', 'A'] from rfl, if_pos rfl]
  exact ⟨_, rfl⟩

end NmeaDecoder


namespace NmeaDecoder

open Nmea NmeaEncoder

theorem rmc_frame (pos : TrackPosition) (options : Option EncodeOptions) (now : Int) :
    ∃ body : List Char,
      generateGPRMC pos options now =
        '$' :: (body ++ '*' :: padStart 2 '0' (natHexUpper (xorFold body))) ∧
      (∀ c ∈ body, c ≠ '*') ∧
      (∃ r, parseNmeaSentence (generateGPRMC pos options now) true = .ok (.rmc r)) := by
  have hstar : ∀ c ∈ (['G', 'P', 'R', 'M', 'C'] ++ ',' :: ((formatNMEATime (resolveTime pos options now) ((options.bind EncodeOptions.includeMs).getD false)) ++ ',' :: (['A'] ++ ',' :: (((pad (Frac.ofInt pos.latitude.abs.floor) 2) ++ (pad ((pos.latitude.abs.sub (Frac.ofInt pos.latitude.abs.floor)).mul (Frac.ofInt 60)) 7 4)) ++ ',' :: ([(if pos.latitude.nonneg then 'N' else 'S')] ++ ',' :: (((pad (Frac.ofInt pos.longitude.abs.floor) 3) ++ (pad ((pos.longitude.abs.sub (Frac.ofInt pos.longitude.abs.floor)).mul (Frac.ofInt 60)) 7 4)) ++ ',' :: ([(if pos.longitude.nonneg then 'E' else 'W')] ++ ',' :: ((jsToFixed 1 (pos.speed.mul ⟨194384, 100000⟩)) ++ ',' :: ((jsToFixed 1 pos.heading) ++ ',' :: ((formatNMEADate (resolveTime pos options now)) ++ ',' :: (',' :: ',' :: ['A']))))))))))), c ≠ '*' :=
    forall_mem_append_of (by intro c hc; fin_cases hc <;> decide)
      (forall_mem_cons_of (by decide)
      (forall_mem_append_of (fun c hc => (mem_formatNMEATime_ne c hc).2)
      (forall_mem_cons_of (by decide)
      (forall_mem_append_of (by intro c hc; fin_cases hc <;> decide)
      (forall_mem_cons_of (by decide)
      (forall_mem_append_of (forall_mem_append_of (fun c hc => (mem_pad_ne c hc).2) (fun c hc => (mem_pad_ne c hc).2))
      (forall_mem_cons_of (by decide)
      (forall_mem_append_of (by intro c hc; simp only [List.mem_cons, List.not_mem_nil, or_false] at hc; subst hc; split <;> decide)
      (forall_mem_cons_of (by decide)
      (forall_mem_append_of (forall_mem_append_of (fun c hc => (mem_pad_ne c hc).2) (fun c hc => (mem_pad_ne c hc).2))
      (forall_mem_cons_of (by decide)
      (forall_mem_append_of (by intro c hc; simp only [List.mem_cons, List.not_mem_nil, or_false] at hc; subst hc; split <;> decide)
      (forall_mem_cons_of (by decide)
      (forall_mem_append_of (fun c hc => (mem_jsToFixed_ne c hc).2)
      (forall_mem_cons_of (by decide)
      (forall_mem_append_of (fun c hc => (mem_jsToFixed_ne c hc).2)
      (forall_mem_cons_of (by decide)
      (forall_mem_append_of (fun c hc => (mem_formatNMEADate_ne c hc).2)
      (forall_mem_cons_of (by decide)
      (forall_mem_cons_of (by decide)
      (forall_mem_cons_of (by decide)
      (by intro c hc; fin_cases hc <;> decide))))))))))))))))))))))
  have hflat : formatLatitude pos.latitude = pad (Frac.ofInt pos.latitude.abs.floor) 2 ++ pad ((pos.latitude.abs.sub (Frac.ofInt pos.latitude.abs.floor)).mul (Frac.ofInt 60)) 7 4 ++ ',' :: [(if pos.latitude.nonneg then 'N' else 'S')] := rfl
  have hflon : formatLongitude pos.longitude = pad (Frac.ofInt pos.longitude.abs.floor) 3 ++ pad ((pos.longitude.abs.sub (Frac.ofInt pos.longitude.abs.floor)).mul (Frac.ofInt 60)) 7 4 ++ ',' :: [(if pos.longitude.nonneg then 'E' else 'W')] := rfl
  have hgen : generateGPRMC pos options now =
      '$' :: ((['G', 'P', 'R', 'M', 'C'] ++ ',' :: ((formatNMEATime (resolveTime pos options now) ((options.bind EncodeOptions.includeMs).getD false)) ++ ',' :: (['A'] ++ ',' :: (((pad (Frac.ofInt pos.latitude.abs.floor) 2) ++ (pad ((pos.latitude.abs.sub (Frac.ofInt pos.latitude.abs.floor)).mul (Frac.ofInt 60)) 7 4)) ++ ',' :: ([(if pos.latitude.nonneg then 'N' else 'S')] ++ ',' :: (((pad (Frac.ofInt pos.longitude.abs.floor) 3) ++ (pad ((pos.longitude.abs.sub (Frac.ofInt pos.longitude.abs.floor)).mul (Frac.ofInt 60)) 7 4)) ++ ',' :: ([(if pos.longitude.nonneg then 'E' else 'W')] ++ ',' :: ((jsToFixed 1 (pos.speed.mul ⟨194384, 100000⟩)) ++ ',' :: ((jsToFixed 1 pos.heading) ++ ',' :: ((formatNMEADate (resolveTime pos options now)) ++ ',' :: (',' :: ',' :: ['A']))))))))))) ++ '*' :: padStart 2 '0' (natHexUpper (xorFold (['G', 'P', 'R', 'M', 'C'] ++ ',' :: ((formatNMEATime (resolveTime pos options now) ((options.bind EncodeOptions.includeMs).getD false)) ++ ',' :: (['A'] ++ ',' :: (((pad (Frac.ofInt pos.latitude.abs.floor) 2) ++ (pad ((pos.latitude.abs.sub (Frac.ofInt pos.latitude.abs.floor)).mul (Frac.ofInt 60)) 7 4)) ++ ',' :: ([(if pos.latitude.nonneg then 'N' else 'S')] ++ ',' :: (((pad (Frac.ofInt pos.longitude.abs.floor) 3) ++ (pad ((pos.longitude.abs.sub (Frac.ofInt pos.longitude.abs.floor)).mul (Frac.ofInt 60)) 7 4)) ++ ',' :: ([(if pos.longitude.nonneg then 'E' else 'W')] ++ ',' :: ((jsToFixed 1 (pos.speed.mul ⟨194384, 100000⟩)) ++ ',' :: ((jsToFixed 1 pos.heading) ++ ',' :: ((formatNMEADate (resolveTime pos options now)) ++ ',' :: (',' :: ',' :: ['A'])))))))))))))) := by
    have hb : ("$GPRMC,".toList ++ formatNMEATime (resolveTime pos options now) ((options.bind EncodeOptions.includeMs).getD false) ++ ",A,".toList ++ formatLatitude pos.latitude ++ ",".toList ++ formatLongitude pos.longitude ++ ",".toList ++ jsToFixed 1 (pos.speed.mul ⟨194384, 100000⟩) ++ ",".toList ++ jsToFixed 1 pos.heading ++ ",".toList ++ formatNMEADate (resolveTime pos options now) ++ ",,,A".toList) = '$' :: (['G', 'P', 'R', 'M', 'C'] ++ ',' :: ((formatNMEATime (resolveTime pos options now) ((options.bind EncodeOptions.includeMs).getD false)) ++ ',' :: (['A'] ++ ',' :: (((pad (Frac.ofInt pos.latitude.abs.floor) 2) ++ (pad ((pos.latitude.abs.sub (Frac.ofInt pos.latitude.abs.floor)).mul (Frac.ofInt 60)) 7 4)) ++ ',' :: ([(if pos.latitude.nonneg then 'N' else 'S')] ++ ',' :: (((pad (Frac.ofInt pos.longitude.abs.floor) 3) ++ (pad ((pos.longitude.abs.sub (Frac.ofInt pos.longitude.abs.floor)).mul (Frac.ofInt 60)) 7 4)) ++ ',' :: ([(if pos.longitude.nonneg then 'E' else 'W')] ++ ',' :: ((jsToFixed 1 (pos.speed.mul ⟨194384, 100000⟩)) ++ ',' :: ((jsToFixed 1 pos.heading) ++ ',' :: ((formatNMEADate (resolveTime pos options now)) ++ ',' :: (',' :: ',' :: ['A']))))))))))) := by
      rw [hflat, hflon]
      simp only [show "$GPRMC,".toList = ['$', 'G', 'P', 'R', 'M', 'C', ','] from rfl,
        show ",A,".toList = [',', 'A', ','] from rfl,
        show ",".toList = [','] from rfl,
        show ",,,A".toList = [',', ',', ',', 'A'] from rfl,
        List.cons_append, List.nil_append, List.append_assoc]
    show ("$GPRMC,".toList ++ formatNMEATime (resolveTime pos options now) ((options.bind EncodeOptions.includeMs).getD false) ++ ",A,".toList ++ formatLatitude pos.latitude ++ ",".toList ++ formatLongitude pos.longitude ++ ",".toList ++ jsToFixed 1 (pos.speed.mul ⟨194384, 100000⟩) ++ ",".toList ++ jsToFixed 1 pos.heading ++ ",".toList ++ formatNMEADate (resolveTime pos options now) ++ ",,,A".toList) ++ NmeaEncoder.calculateChecksum ("$GPRMC,".toList ++ formatNMEATime (resolveTime pos options now) ((options.bind EncodeOptions.includeMs).getD false) ++ ",A,".toList ++ formatLatitude pos.latitude ++ ",".toList ++ formatLongitude pos.longitude ++ ",".toList ++ jsToFixed 1 (pos.speed.mul ⟨194384, 100000⟩) ++ ",".toList ++ jsToFixed 1 pos.heading ++ ",".toList ++ formatNMEADate (resolveTime pos options now) ++ ",,,A".toList) = _
    rw [NmeaEncoder.calculateChecksum, hb]
    rw [show ('$' :: (['G', 'P', 'R', 'M', 'C'] ++ ',' :: ((formatNMEATime (resolveTime pos options now) ((options.bind EncodeOptions.includeMs).getD false)) ++ ',' :: (['A'] ++ ',' :: (((pad (Frac.ofInt pos.latitude.abs.floor) 2) ++ (pad ((pos.latitude.abs.sub (Frac.ofInt pos.latitude.abs.floor)).mul (Frac.ofInt 60)) 7 4)) ++ ',' :: ([(if pos.latitude.nonneg then 'N' else 'S')] ++ ',' :: (((pad (Frac.ofInt pos.longitude.abs.floor) 3) ++ (pad ((pos.longitude.abs.sub (Frac.ofInt pos.longitude.abs.floor)).mul (Frac.ofInt 60)) 7 4)) ++ ',' :: ([(if pos.longitude.nonneg then 'E' else 'W')] ++ ',' :: ((jsToFixed 1 (pos.speed.mul ⟨194384, 100000⟩)) ++ ',' :: ((jsToFixed 1 pos.heading) ++ ',' :: ((formatNMEADate (resolveTime pos options now)) ++ ',' :: (',' :: ',' :: ['A'])))))))))))).drop 1 = (['G', 'P', 'R', 'M', 'C'] ++ ',' :: ((formatNMEATime (resolveTime pos options now) ((options.bind EncodeOptions.includeMs).getD false)) ++ ',' :: (['A'] ++ ',' :: (((pad (Frac.ofInt pos.latitude.abs.floor) 2) ++ (pad ((pos.latitude.abs.sub (Frac.ofInt pos.latitude.abs.floor)).mul (Frac.ofInt 60)) 7 4)) ++ ',' :: ([(if pos.latitude.nonneg then 'N' else 'S')] ++ ',' :: (((pad (Frac.ofInt pos.longitude.abs.floor) 3) ++ (pad ((pos.longitude.abs.sub (Frac.ofInt pos.longitude.abs.floor)).mul (Frac.ofInt 60)) 7 4)) ++ ',' :: ([(if pos.longitude.nonneg then 'E' else 'W')] ++ ',' :: ((jsToFixed 1 (pos.speed.mul ⟨194384, 100000⟩)) ++ ',' :: ((jsToFixed 1 pos.heading) ++ ',' :: ((formatNMEADate (resolveTime pos options now)) ++ ',' :: (',' :: ',' :: ['A']))))))))))) from rfl]
    rw [checksumLoop_eq hstar 0, Nat.zero_xor]
    simp
  have hsplit : splitOn ',' (['G', 'P', 'R', 'M', 'C'] ++ ',' :: ((formatNMEATime (resolveTime pos options now) ((options.bind EncodeOptions.includeMs).getD false)) ++ ',' :: (['A'] ++ ',' :: (((pad (Frac.ofInt pos.latitude.abs.floor) 2) ++ (pad ((pos.latitude.abs.sub (Frac.ofInt pos.latitude.abs.floor)).mul (Frac.ofInt 60)) 7 4)) ++ ',' :: ([(if pos.latitude.nonneg then 'N' else 'S')] ++ ',' :: (((pad (Frac.ofInt pos.longitude.abs.floor) 3) ++ (pad ((pos.longitude.abs.sub (Frac.ofInt pos.longitude.abs.floor)).mul (Frac.ofInt 60)) 7 4)) ++ ',' :: ([(if pos.longitude.nonneg then 'E' else 'W')] ++ ',' :: ((jsToFixed 1 (pos.speed.mul ⟨194384, 100000⟩)) ++ ',' :: ((jsToFixed 1 pos.heading) ++ ',' :: ((formatNMEADate (resolveTime pos options now)) ++ ',' :: (',' :: ',' :: ['A']))))))))))) =
      [['G', 'P', 'R', 'M', 'C'], formatNMEATime (resolveTime pos options now) ((options.bind EncodeOptions.includeMs).getD false),
      ['A'], (pad (Frac.ofInt pos.latitude.abs.floor) 2) ++ (pad ((pos.latitude.abs.sub (Frac.ofInt pos.latitude.abs.floor)).mul (Frac.ofInt 60)) 7 4), [(if pos.latitude.nonneg then 'N' else 'S')],
      (pad (Frac.ofInt pos.longitude.abs.floor) 3) ++ (pad ((pos.longitude.abs.sub (Frac.ofInt pos.longitude.abs.floor)).mul (Frac.ofInt 60)) 7 4), [(if pos.longitude.nonneg then 'E' else 'W')],
      jsToFixed 1 (pos.speed.mul ⟨194384, 100000⟩), jsToFixed 1 pos.heading,
      formatNMEADate (resolveTime pos options now), [], [], ['A']] := by
    rw [splitOn_append (by intro c hc; fin_cases hc <;> decide),
      splitOn_append (fun c hc => (mem_formatNMEATime_ne c hc).1),
      splitOn_append (by intro c hc; fin_cases hc <;> decide),
      splitOn_append (forall_mem_append_of (fun c hc => (mem_pad_ne c hc).1) (fun c hc => (mem_pad_ne c hc).1)),
      splitOn_append (by intro c hc; simp only [List.mem_cons, List.not_mem_nil, or_false] at hc; subst hc; split <;> decide),
      splitOn_append (forall_mem_append_of (fun c hc => (mem_pad_ne c hc).1) (fun c hc => (mem_pad_ne c hc).1)),
      splitOn_append (by intro c hc; simp only [List.mem_cons, List.not_mem_nil, or_false] at hc; subst hc; split <;> decide),
      splitOn_append (fun c hc => (mem_jsToFixed_ne c hc).1),
      splitOn_append (fun c hc => (mem_jsToFixed_ne c hc).1),
      splitOn_append (fun c hc => (mem_formatNMEADate_ne c hc).1),
      splitOn_cons_sep,
      splitOn_cons_sep,
      splitOn_sepFree (by intro c hc; fin_cases hc <;> decide)]
  refine ⟨_, hgen, hstar, ?_⟩
  rw [hgen, parseNmeaSentence_split hstar true, if_pos rfl]
  simp only [NmeaDecoder.calculateChecksum]
  rw [if_pos (padded_checksum_parse _)]
  rw [parseBody, hsplit]
  simp only [List.headI_cons]
  rw [show List.drop 2 ['G', 'P', 'R', 'M', 'C'] = ['R', 'M', 'C'] from rfl,
    if_neg (by decide), if_pos rfl]
  have h9 : ([['G', 'P', 'R', 'M', 'C'], formatNMEATime (resolveTime pos options now) ((options.bind EncodeOptions.includeMs).getD false),
      ['A'], (pad (Frac.ofInt pos.latitude.abs.floor) 2) ++ (pad ((pos.latitude.abs.sub (Frac.ofInt pos.latitude.abs.floor)).mul (Frac.ofInt 60)) 7 4), [(if pos.latitude.nonneg then 'N' else 'S')],
      (pad (Frac.ofInt pos.longitude.abs.floor) 3) ++ (pad ((pos.longitude.abs.sub (Frac.ofInt pos.longitude.abs.floor)).mul (Frac.ofInt 60)) 7 4), [(if pos.longitude.nonneg then 'E' else 'W')],
      jsToFixed 1 (pos.speed.mul ⟨194384, 100000⟩), jsToFixed 1 pos.heading,
      formatNMEADate (resolveTime pos options now), [], [], ['A']] : List (List Char)).get? 9 = some (formatNMEADate (resolveTime pos options now)) := rfl
  have h1 : ([['G', 'P', 'R', 'M', 'C'], formatNMEATime (resolveTime pos options now) ((options.bind EncodeOptions.includeMs).getD false),
      ['A'], (pad (Frac.ofInt pos.latitude.abs.floor) 2) ++ (pad ((pos.latitude.abs.sub (Frac.ofInt pos.latitude.abs.floor)).mul (Frac.ofInt 60)) 7 4), [(if pos.latitude.nonneg then 'N' else 'S')],
      (pad (Frac.ofInt pos.longitude.abs.floor) 3) ++ (pad ((pos.longitude.abs.sub (Frac.ofInt pos.longitude.abs.floor)).mul (Frac.ofInt 60)) 7 4), [(if pos.longitude.nonneg then 'E' else 'W')],
      jsToFixed 1 (pos.speed.mul ⟨194384, 100000⟩), jsToFixed 1 pos.heading,
      formatNMEADate (resolveTime pos options now), [], [], ['A']] : List (List Char)).get? 1 = some (formatNMEATime (resolveTime pos options now) ((options.bind EncodeOptions.includeMs).getD false)) := rfl
  simp only [parseRMC, h9, h1, parseDateTime]
  exact ⟨_, rfl⟩

end NmeaDecoder

namespace NmeaDecoder

open Nmea NmeaEncoder

/-- C2 (amended): for every track position and options carrying an
explicit `options.timestamp`, the frames produced by `generateGPGGA` and
`generateGPRMC` parse successfully under checksum validation; and
replacing any single character strictly between the leading `$` and the
checksum delimiter `*` by a different character OTHER THAN `*` itself
makes validation fail with a checksum mismatch.  The restriction to
non-`*` replacement characters is the amendment: replacing a body
character by `*` moves the first-`*` split point and can slip past
validation (see the counterexample). -/
theorem claim2_encode_validate_mutate (pos : TrackPosition)
    (options : Option EncodeOptions) (now ts : Int)
    (hts : options.bind EncodeOptions.timestamp = some ts) :
    (∃ body : List Char,
      generateGPGGA pos options now =
        '$' :: (body ++ '*' :: padStart 2 '0' (natHexUpper (xorFold body))) ∧
      (∃ g, parseNmeaSentence (generateGPGGA pos options now) true = .ok (.gga g)) ∧
      ∀ (i : Nat) (hi : i < body.length) (y : Char), y ≠ body.get ⟨i, hi⟩ → y ≠ '*' →
        parseNmeaSentence
          ('$' :: (body.set i y ++ '*' :: padStart 2 '0' (natHexUpper (xorFold body))))
          true = .error .checksumMismatch) ∧
    (∃ body : List Char,
      generateGPRMC pos options now =
        '$' :: (body ++ '*' :: padStart 2 '0' (natHexUpper (xorFold body))) ∧
      (∃ r, parseNmeaSentence (generateGPRMC pos options now) true = .ok (.rmc r)) ∧
      ∀ (i : Nat) (hi : i < body.length) (y : Char), y ≠ body.get ⟨i, hi⟩ → y ≠ '*' →
        parseNmeaSentence
          ('$' :: (body.set i y ++ '*' :: padStart 2 '0' (natHexUpper (xorFold body))))
          true = .error .checksumMismatch) := by
  obtain ⟨bg, hg1, hg2, hg3⟩ := gga_frame pos options now
  obtain ⟨br, hr1, hr2, hr3⟩ := rmc_frame pos options now
  refine ⟨⟨bg, hg1, hg3, ?_⟩, ⟨br, hr1, hr3, ?_⟩⟩
  · intro i hi y hy hys
    exact mutation_checksum_mismatch hg2 hi hy hys
  · intro i hi y hy hys
    exact mutation_checksum_mismatch hr2 hi hy hys

end NmeaDecoder

namespace NmeaDecoder

open Nmea NmeaEncoder

set_option maxRecDepth 1000000 in
/-- Counterexample to C2 as stated: in the generated frame
`$GPGGA,000006,0000.0000,N,00000.0000,E,1,08,0.9,0.0,M,0.0,M,,*75` the
checksum delimiter is the `*` at index 61 (no earlier character is a
`*`), index 27 lies strictly between the leading `$` and that delimiter
and holds a character different from `*`; yet replacing it by the
character `*` leaves a sentence that parseNmeaSentence with validation
enabled accepts instead of rejecting with a checksum error. -/
theorem claim2_counterexample :
    (generateGPGGA ⟨⟨0, 1⟩, ⟨0, 1⟩, ⟨0, 1⟩, ⟨0, 1⟩, ⟨0, 1⟩, none⟩ (some ⟨some 6000, none⟩) 0).length = 64 ∧
    (∀ j, j < 61 → (generateGPGGA ⟨⟨0, 1⟩, ⟨0, 1⟩, ⟨0, 1⟩, ⟨0, 1⟩, ⟨0, 1⟩, none⟩ (some ⟨some 6000, none⟩) 0).get? j ≠ some '*') ∧
    (generateGPGGA ⟨⟨0, 1⟩, ⟨0, 1⟩, ⟨0, 1⟩, ⟨0, 1⟩, ⟨0, 1⟩, none⟩ (some ⟨some 6000, none⟩) 0).get? 61 = some '*' ∧
    (generateGPGGA ⟨⟨0, 1⟩, ⟨0, 1⟩, ⟨0, 1⟩, ⟨0, 1⟩, ⟨0, 1⟩, none⟩ (some ⟨some 6000, none⟩) 0).get? 27 ≠ some '*' ∧
    (parseNmeaSentence ((generateGPGGA ⟨⟨0, 1⟩, ⟨0, 1⟩, ⟨0, 1⟩, ⟨0, 1⟩, ⟨0, 1⟩, none⟩ (some ⟨some 6000, none⟩) 0).set 27 '*') true).isOk = true := by
  refine ⟨by decide, by decide, by decide, by decide, by decide⟩

end NmeaDecoder

namespace NmeaDecoder

open Nmea NmeaEncoder

/-- Witness for C2 (amended) at a concrete position with an explicit
`options.timestamp` of 6000 epoch milliseconds. -/
theorem claim2_encode_validate_mutate_witness :
    (∃ body : List Char,
      generateGPGGA (⟨⟨0, 1⟩, ⟨0, 1⟩, ⟨0, 1⟩, ⟨0, 1⟩, ⟨0, 1⟩, none⟩ : TrackPosition) (some ⟨some 6000, none⟩) 0 =
        '$' :: (body ++ '*' :: padStart 2 '0' (natHexUpper (xorFold body))) ∧
      (∃ g, parseNmeaSentence (generateGPGGA (⟨⟨0, 1⟩, ⟨0, 1⟩, ⟨0, 1⟩, ⟨0, 1⟩, ⟨0, 1⟩, none⟩ : TrackPosition) (some ⟨some 6000, none⟩) 0) true = .ok (.gga g)) ∧
      ∀ (i : Nat) (hi : i < body.length) (y : Char), y ≠ body.get ⟨i, hi⟩ → y ≠ '*' →
        parseNmeaSentence
          ('$' :: (body.set i y ++ '*' :: padStart 2 '0' (natHexUpper (xorFold body))))
          true = .error .checksumMismatch) ∧
    (∃ body : List Char,
      generateGPRMC (⟨⟨0, 1⟩, ⟨0, 1⟩, ⟨0, 1⟩, ⟨0, 1⟩, ⟨0, 1⟩, none⟩ : TrackPosition) (some ⟨some 6000, none⟩) 0 =
        '$' :: (body ++ '*' :: padStart 2 '0' (natHexUpper (xorFold body))) ∧
      (∃ r, parseNmeaSentence (generateGPRMC (⟨⟨0, 1⟩, ⟨0, 1⟩, ⟨0, 1⟩, ⟨0, 1⟩, ⟨0, 1⟩, none⟩ : TrackPosition) (some ⟨some 6000, none⟩) 0) true = .ok (.rmc r)) ∧
      ∀ (i : Nat) (hi : i < body.length) (y : Char), y ≠ body.get ⟨i, hi⟩ → y ≠ '*' →
        parseNmeaSentence
          ('$' :: (body.set i y ++ '*' :: padStart 2 '0' (natHexUpper (xorFold body))))
          true = .error .checksumMismatch) :=
  claim2_encode_validate_mutate ⟨⟨0, 1⟩, ⟨0, 1⟩, ⟨0, 1⟩, ⟨0, 1⟩, ⟨0, 1⟩, none⟩ (some ⟨some 6000, none⟩) 0 6000 rfl

end NmeaDecoder
